import Mathlib

/-!
Verification development for `scripts/strip_iop.py`, a source-to-source
transformer that removes GUI-only code from darktable IOP `.c` files.

The Python script is embedded shallowly:
* lines are `String`s (as produced by `readlines()`, i.e. usually ending in
  a newline character);
* the regular expressions of the script are transcribed literally into a
  small abstract syntax (`RE`) whose matcher `mrun` implements Python's
  backtracking semantics (leftmost alternation, greedy star with
  backtracking, word boundaries, `$` that also matches before a final
  newline, `.` that does not match a newline);
* every pass of `strip_iop` becomes a pure function on `List String`;
* the classifier's mutable `to_remove` set becomes a `Finset String`,
  its `while changed` loops become fuel-bounded fixed-point iterations
  (`sweepFix`), where the fuel `|func_map| + 1` provably suffices to reach
  the fixed point.
-/

namespace StripIop

/-! ## Python character classes and string helpers -/

/-- Python `\s` (ASCII whitespace as used by `str.strip` and `re` here). -/
def isPySpace (c : Char) : Bool :=
  c = ' ' || c = '\t' || c = '\n' || c = '\r' || c = '\x0b' || c = '\x0c'

/-- Python `\w`: `[a-zA-Z0-9_]`. -/
def isWordChar (c : Char) : Bool :=
  ('a' ≤ c && c ≤ 'z') || ('A' ≤ c && c ≤ 'Z') || ('0' ≤ c && c ≤ '9') || c = '_'

/-- `[a-zA-Z_]`. -/
def isAlphaU (c : Char) : Bool :=
  ('a' ≤ c && c ≤ 'z') || ('A' ≤ c && c ≤ 'Z') || c = '_'

/-- Python `str.strip()` (strip ASCII whitespace from both ends). -/
def pstrip (s : String) : String :=
  ⟨(((s.data.dropWhile isPySpace).reverse.dropWhile isPySpace).reverse)⟩

/-- Python `str.startswith(t)`. -/
def pstarts (s t : String) : Bool := t.data.isPrefixOf s.data

/-- Python substring containment `t in s`. -/
def strContains (s t : String) : Bool := decide (t.data <:+: s.data)

/-- Python `str.lstrip("/")`. -/
def lstripSlash (s : String) : String := ⟨s.data.dropWhile (fun c => c = '/')⟩

/-! ## A backtracking regular-expression engine

Transcribes exactly the features used by `strip_iop.py`: character
classes, concatenation, alternation (leftmost preference), greedy `*`
with backtracking (with Python's rule that an empty repetition ends the
loop), capture groups, `\b` and `$`.  `mrun` is continuation-passing;
`RE.star` delegates to the structurally recursive `mstar`, whose fuel
`|s| + 1 - i` bounds the number of nonempty repetitions. -/

inductive RE : Type where
  | eps : RE
  | cls : (Char → Bool) → RE
  | seq : RE → RE → RE
  | alt : RE → RE → RE
  | star : RE → RE
  | grp : Nat → RE → RE
  | wb : RE
  | eol : RE

/-- Captured groups: `(index, captured text)`, most recent first. -/
abbrev Caps := List (Nat × String)

/-- Continuations for the matcher. -/
abbrev Cont := Nat → Caps → Option Caps

/-- Is the character at position `j` of `s` a word character (`false` out of range)? -/
def wordAt (s : List Char) (j : Nat) : Bool :=
  match s.get? j with
  | some c => isWordChar c
  | none => false

/-- Python `\b` at position `i` of `s`. -/
def isBoundary (s : List Char) (i : Nat) : Bool :=
  (if i = 0 then false else wordAt s (i - 1)) != wordAt s i

/-- Python `$` (no MULTILINE): end of string, or just before a final newline. -/
def atEol (s : List Char) (i : Nat) : Bool :=
  i = s.length || (i + 1 = s.length && s.get? i = some '\n')

/-- The text of `s` between positions `i` and `j`. -/
def extract (s : List Char) (i j : Nat) : String := ⟨(s.drop i).take (j - i)⟩

/-- Greedy repetition of a matcher `ma` with backtracking; an iteration must
consume at least one character (Python stops repeating on an empty match). -/
def mstar (ma : Nat → Caps → Cont → Option Caps) : Nat → Nat → Caps → Cont → Option Caps
  | 0, i, caps, k => k i caps
  | fuel + 1, i, caps, k =>
    (ma i caps (fun j caps' => if i < j then mstar ma fuel j caps' k else none)).orElse
      (fun _ => k i caps)

/-- The backtracking matcher, continuation-passing style. -/
def mrun (s : List Char) : RE → Nat → Caps → Cont → Option Caps
  | .eps, i, caps, k => k i caps
  | .cls p, i, caps, k =>
    match s.get? i with
    | some c => if p c then k (i + 1) caps else none
    | none => none
  | .seq a b, i, caps, k => mrun s a i caps (fun j caps' => mrun s b j caps' k)
  | .alt a b, i, caps, k => (mrun s a i caps k).orElse (fun _ => mrun s b i caps k)
  | .star a, i, caps, k => mstar (mrun s a) (s.length + 1 - i) i caps k
  | .grp n a, i, caps, k => mrun s a i caps (fun j caps' => k j ((n, extract s i j) :: caps'))
  | .wb, i, caps, k => if isBoundary s i then k i caps else none
  | .eol, i, caps, k => if atEol s i then k i caps else none

/-- Python `re.match(pattern, str)`: anchored at the start, returning captures. -/
def reCaps (re : RE) (str : String) : Option Caps :=
  mrun str.data re 0 [] (fun _ caps => some caps)

/-- Python `re.match(...)` used as a boolean. -/
def reMatches (re : RE) (str : String) : Bool := (reCaps re str).isSome

/-- `m.group(n)` of an anchored match (`none` if there is no match). -/
def reGroup (re : RE) (str : String) (n : Nat) : Option String :=
  match reCaps re str with
  | some caps =>
    match caps.find? (fun e => e.1 = n) with
    | some e => some e.2
    | none => none
  | none => none

/-- Python `re.search(pattern, str)` used as a boolean: a match starting at
some position of the string. -/
def reSearch (re : RE) (str : String) : Bool :=
  (List.range (str.data.length + 1)).any
    (fun i => (mrun str.data re i [] (fun _ caps => some caps)).isSome)

/-- Literal character. -/
def rchar (c : Char) : RE := .cls (fun x => x = c)

/-- Literal string. -/
def rstr (t : String) : RE := t.data.foldr (fun c r => .seq (rchar c) r) .eps

/-- `r?`. -/
def ropt (r : RE) : RE := .alt r .eps

/-- `r+`. -/
def rplus (r : RE) : RE := .seq r (.star r)

/-- `\s`. -/
def rws : RE := .cls isPySpace

/-- `\s*`. -/
def rwss : RE := .star rws

/-- `\s+`. -/
def rwsp : RE := rplus rws

/-- `\w`. -/
def rw : RE := .cls isWordChar

/-- `\w+`. -/
def rwp : RE := rplus rw

/-- `.` (anything but a newline). -/
def rdot : RE := .cls (fun c => c ≠ '\n')

/-- `.*`. -/
def rdots : RE := .star rdot

/-- Right-nested alternation `a|b|...` (leftmost preference, as in Python). -/
def rAlts : List RE → RE
  | [] => .eps
  | [r] => r
  | r :: rs => .alt r (rAlts rs)

/-- Chain of concatenations. -/
def rSeqs : List RE → RE
  | [] => .eps
  | [r] => r
  | r :: rs => .seq r (rSeqs rs)

/-! ## Configuration tables of `strip_iop.py` -/

/-- `GUI_FUNCTION_NAMES`. -/
def GUI_FUNCTION_NAMES : List String :=
  ["gui_init", "gui_cleanup", "gui_update", "gui_changed", "gui_reset", "gui_focus",
   "color_picker_apply", "mouse_moved", "mouse_pressed", "mouse_released",
   "mouse_scrolled", "mouse_leave", "mouse_actions"]

/-- `GUI_FUNCTION_PREFIXES`. -/
def GUI_FUNCTION_NAME_STARTS : List String := ["gui_"]

/-- `KEEP_FUNCTIONS`: the protected names. -/
def KEEP_FUNCTIONS : List String :=
  ["process", "process_cl", "init", "cleanup", "commit_params", "init_pipe",
   "cleanup_pipe", "init_global", "cleanup_global", "modify_roi_in", "modify_roi_out",
   "distort_transform", "distort_backtransform", "distort_mask", "name", "aliases",
   "description", "default_group", "flags", "default_colorspace", "input_colorspace",
   "output_colorspace", "blend_colorspace", "legacy_params", "init_presets",
   "reload_defaults", "tiling_callback"]

/-- `GUI_TOKENS`. -/
def GUI_TOKENS : List String :=
  ["_gui_data_t", "GtkWidget", "GtkStack", "GtkLabel", "GtkToggleButton",
   "GtkDrawingArea", "GtkNotebook", "GtkAllocation", "GtkStyleContext",
   "GtkColorButton", "GtkBin", "GTK_WIDGET", "GTK_LABEL", "GTK_STACK", "GTK_BIN",
   "GTK_BUTTON", "GTK_IS_GESTURE", "GTK_TOGGLE_BUTTON", "GTK_DRAWING_AREA",
   "gtk_widget_", "gtk_label_", "gtk_box_", "gtk_stack_", "gtk_toggle_",
   "gtk_button_", "gtk_drawing_area_", "gtk_notebook_", "dt_bauhaus_",
   "darktable.gui", "darktable.bauhaus", "dt_iop_gui_", "IOP_GUI_ALLOC",
   "g_signal_connect", "g_idle_add", "g_idle_remove", "DT_PIXEL_APPLY_DPI",
   "DT_BAUHAUS_", "PANGO_ELLIPSIZE", "PangoRectangle", "pango_",
   "cairo_set_source", "cairo_rectangle", "cairo_fill", "cairo_stroke",
   "cairo_destroy", "cairo_create", "cairo_paint", "cairo_set_line",
   "cairo_surface_", "dt_cairo_image_surface", "dt_action_widget_toast",
   "dt_shortcut_register", "dt_dev_add_history_item", "dt_color_picker_new",
   "dt_iop_color_picker_reset", "dt_gui_update_collapsible",
   "dt_gui_new_collapsible", "dt_gui_box_add", "dt_gui_hbox", "dt_gui_vbox",
   "dt_gui_expand", "dt_ui_label_new", "dt_ui_section_label_new"]

/-- `NOT_FUNCTIONS`: identifiers that look like definitions but are control flow. -/
def NOT_FUNCTIONS : List String :=
  ["if", "for", "while", "switch", "return", "sizeof", "typeof",
   "DT_OMP_FOR", "DT_OMP_FOR_SIMD", "DT_OMP_PRAGMA"]

/-! ## The concrete regular expressions, transcribed from the source -/

/-- `[^"]` -/
def clsNotDq : RE := .cls (fun c => c ≠ '"')

/-- `[^)]` -/
def clsNotRp : RE := .cls (fun c => c ≠ ')')

/-- `[^}]` -/
def clsNotRb : RE := .cls (fun c => c ≠ '\x7d')

/-- GUI include pattern `"bauhaus/bauhaus\.h"`. -/
def GUI_INC1 : RE := rstr "\"bauhaus/bauhaus.h\""

/-- GUI include pattern `"dtgtk/[^"]*"`. -/
def GUI_INC2 : RE := rSeqs [rchar '"', rstr "dtgtk/", .star clsNotDq, rchar '"']

/-- GUI include pattern `"gui/[^"]*"`. -/
def GUI_INC3 : RE := rSeqs [rchar '"', rstr "gui/", .star clsNotDq, rchar '"']

/-- GUI include pattern `<gtk/gtk\.h>`. -/
def GUI_INC4 : RE := rstr "<gtk/gtk.h>"

/-- GUI include pattern `"develop/imageop_gui\.h"`. -/
def GUI_INC5 : RE := rstr "\"develop/imageop_gui.h\""

/-- `[^"<>]` (the class of the case-insensitive gui-include pattern). -/
def clsIncBody : RE := .cls (fun c => c ≠ '"' && c ≠ '<' && c ≠ '>')

/-- A character equal to `c` up to ASCII case (for the `re.IGNORECASE` pattern). -/
def rcharCI (c : Char) : RE := .cls (fun x => x.toLower = c)

/-- GUI include pattern `[<"][^"<>]*gui[^"<>]*[>"]` with `re.IGNORECASE`. -/
def GUI_INC6 : RE :=
  rSeqs [.cls (fun c => c = '<' || c = '"'), .star clsIncBody,
         rcharCI 'g', rcharCI 'u', rcharCI 'i', .star clsIncBody,
         .cls (fun c => c = '>' || c = '"')]

/-- All six `GUI_INCLUDE_PATTERNS`, in source order. -/
def GUI_INCLUDE_PATTERNS : List RE :=
  [GUI_INC1, GUI_INC2, GUI_INC3, GUI_INC4, GUI_INC5, GUI_INC6]

/-- The struct-start pattern `\btypedef\s+struct\s+dt_iop_\w+_gui_data_t\b`
(used with `re.search`). -/
def GUI_DATA_STRUCT_RE : RE :=
  rSeqs [.wb, rstr "typedef", rwsp, rstr "struct", rwsp,
         rstr "dt_iop_", rwp, rstr "_gui_data_t", .wb]

/-- `FUNC_DEF_RE` group 1 (`qualifiers`):
`(?:static\s+|const\s+|inline\s+|DT_OMP_\w+\s+)*`. -/
def FUNC_DEF_QUALS : RE :=
  .grp 1 (.star (rAlts [rSeqs [rstr "static", rwsp], rSeqs [rstr "const", rwsp],
                        rSeqs [rstr "inline", rwsp], rSeqs [rstr "DT_OMP_", rwp, rwsp]]))

/-- `FUNC_DEF_RE` group 2 (`return_type`):
`(?:(?:unsigned|signed|long|short|struct|enum|const|volatile)\s+)*`
followed by one of the known type tokens and `\s*\*?\s*`. -/
def FUNC_DEF_RET : RE :=
  .grp 2 (rSeqs
    [.star (rSeqs [rAlts [rstr "unsigned", rstr "signed", rstr "long", rstr "short",
                          rstr "struct", rstr "enum", rstr "const", rstr "volatile"], rwsp]),
     rAlts [rstr "void", rstr "int", rstr "float", rstr "double", rstr "gboolean",
            rstr "gchar", rstr "char", rstr "size_t", rstr "cl_int",
            rSeqs [rstr "dt_", rwp], rstr "GtkWidget", rSeqs [rstr "cairo_", rwp]],
     rwss, ropt (rchar '*'), rwss])

/-- `FUNC_DEF_RE` (anchored match): qualifiers, return type,
`(?P<name>[a-zA-Z_]\w*)\s*\(`; the name is group 3. -/
def FUNC_DEF_RE : RE :=
  rSeqs [FUNC_DEF_QUALS, FUNC_DEF_RET,
         .grp 3 (.seq (.cls isAlphaU) (.star rw)), rwss, rchar '(']

/-- `FORWARD_DECL_RE`: `^static\s+[\w\s\*]+\b([a-zA-Z_]\w*)\s*\([^)]*\)\s*;`. -/
def FORWARD_DECL_RE : RE :=
  rSeqs [rstr "static", rwsp, rplus (.cls (fun c => isWordChar c || isPySpace c || c = '*')),
         .wb, .grp 1 (.seq (.cls isAlphaU) (.star rw)), rwss,
         rchar '(', .star clsNotRp, rchar ')', rwss, rchar ';']

/-- The `is_forward_declaration` pattern `.*\)\s*;$`. -/
def FWD_END_RE : RE := rSeqs [rdots, rchar ')', rwss, rchar ';', .eol]

/-- The gui-data binding-assignment pattern of `strip_gui_data_in_function`:
`(\s*)(?:const\s+)?(?:dt_iop_\w+_gui_data_t|void)\s*\*\s*(?:const\s+)?(\w+)\s*=\s*(?:\([^)]*\)\s*)?self->gui_data\s*;`. -/
def GD_ASSIGN_RE : RE :=
  rSeqs [.grp 1 rwss, ropt (rSeqs [rstr "const", rwsp]),
         rAlts [rSeqs [rstr "dt_iop_", rwp, rstr "_gui_data_t"], rstr "void"],
         rwss, rchar '*', rwss, ropt (rSeqs [rstr "const", rwsp]),
         .grp 2 rwp, rwss, rchar '=', rwss,
         ropt (rSeqs [rchar '(', .star clsNotRp, rchar ')', rwss]),
         rstr "self->gui_data", rwss, rchar ';']

/-- `\s*\(\(dt_iop_\w+_gui_data_t\s*\*\)\s*self->gui_data\)->\w+\s*=.*;\s*$`. -/
def GD_CAST_SET_RE : RE :=
  rSeqs [rwss, rstr "((", rstr "dt_iop_", rwp, rstr "_gui_data_t", rwss,
         rchar '*', rchar ')', rwss, rstr "self->gui_data", rchar ')',
         rstr "->", rwp, rwss, rchar '=', rdots, rchar ';', rwss, .eol]

/-- `\s*if\s*\(\s*self->gui_data\s*\)\s*\{[^}]*\}\s*$` (the one-line form). -/
def IF_GD_ONE_RE : RE :=
  rSeqs [rwss, rstr "if", rwss, rchar '(', rwss, rstr "self->gui_data", rwss,
         rchar ')', rwss, rchar '\x7b', .star clsNotRb, rchar '\x7d', rwss, .eol]

/-- `\s*if\s*\(\s*self->gui_data\s*\)`. -/
def IF_GD_RE : RE :=
  rSeqs [rwss, rstr "if", rwss, rchar '(', rwss, rstr "self->gui_data", rwss, rchar ')']

/-- `(\s*)if\s*\(\s*G\s*\)` for a bound variable `G` (`re.escape` of an
identifier is itself). -/
def IF_VAR_RE (g : String) : RE :=
  rSeqs [.grp 1 rwss, rstr "if", rwss, rchar '(', rwss, rstr g, rwss, rchar ')']

/-- `\s*if\s*\(\s*G\s*&&`. -/
def IF_VAR_AND_RE (g : String) : RE :=
  rSeqs [rwss, rstr "if", rwss, rchar '(', rwss, rstr g, rwss, rstr "&&"]

/-- `\s*if\s*\(.*&&\s*G\b`. -/
def IF_AND_VAR_RE (g : String) : RE :=
  rSeqs [rwss, rstr "if", rwss, rchar '(', rdots, rstr "&&", rwss, rstr g, .wb]

/-- `\s*G->\w+\s*=.*;\s*$`. -/
def VAR_SET_RE (g : String) : RE :=
  rSeqs [rwss, rstr g, rstr "->", rwp, rwss, rchar '=', rdots, rchar ';', rwss, .eol]

/-- `\s*else\b`. -/
def ELSE_RE : RE := rSeqs [rwss, rstr "else", .wb]

/-- The pass-4b pattern `if\s*\(\s*self->widget\s*\)` (matched on the stripped line). -/
def IF_WIDGET_RE : RE :=
  rSeqs [rstr "if", rwss, rchar '(', rwss, rstr "self->widget", rwss, rchar ')']

/-- The pass-6 declaration pattern `(?:const\s+)?dt_iop_\w+_gui_data_t\s*\*`. -/
def GD_DECL_RE : RE :=
  rSeqs [ropt (rSeqs [rstr "const", rwsp]), rstr "dt_iop_", rwp,
         rstr "_gui_data_t", rwss, rchar '*']

/-- The pass-6 cast pattern `\(\(dt_iop_\w+_gui_data_t\s*\*\)\s*self->gui_data\)`. -/
def GD_CAST_RE : RE :=
  rSeqs [rstr "((", rstr "dt_iop_", rwp, rstr "_gui_data_t", rwss, rchar '*',
         rchar ')', rwss, rstr "self->gui_data", rchar ')']

/-- The dynamic pattern `\b NAME \b` used by `has_external_ref` and
`build_call_graph` (with `re.search`). -/
def wordRE (nm : String) : RE := rSeqs [.wb, rstr nm, .wb]

/-! ## Brace-matching helpers (`_strip_strings_and_chars`, `find_brace_block_end`) -/

/-- Scanner mode for `_strip_strings_and_chars`: outside any literal,
inside a string literal, or inside a character literal. -/
inductive LitMode : Type where
  | normal : LitMode
  | instr : LitMode
  | inchr : LitMode

/-- `_strip_strings_and_chars`, as a mode-carrying scan: in a literal,
a backslash skips the next character; the matching delimiter returns to
normal mode; characters inside literals are dropped. -/
def stripLitsGo : LitMode → List Char → List Char
  | .normal, [] => []
  | .normal, '"' :: rest => stripLitsGo .instr rest
  | .normal, '\'' :: rest => stripLitsGo .inchr rest
  | .normal, c :: rest => c :: stripLitsGo .normal rest
  | .instr, [] => []
  | .instr, '\\' :: [] => []
  | .instr, '\\' :: _ :: rest => stripLitsGo .instr rest
  | .instr, c :: rest => if c = '"' then stripLitsGo .normal rest else stripLitsGo .instr rest
  | .inchr, [] => []
  | .inchr, '\\' :: [] => []
  | .inchr, '\\' :: _ :: rest => stripLitsGo .inchr rest
  | .inchr, c :: rest => if c = '\'' then stripLitsGo .normal rest else stripLitsGo .inchr rest

/-- `_strip_strings_and_chars(line)` on the character list. -/
def stripLits (l : List Char) : List Char := stripLitsGo .normal l

/-- `stripped.find("//")` followed by truncation: drop a trailing `//` comment. -/
def dropLineComment : List Char → List Char
  | [] => []
  | '/' :: '/' :: _ => []
  | c :: rest => c :: dropLineComment rest

/-- The character stream that `find_brace_block_end` counts braces over. -/
def prepLine (l : String) : List Char := dropLineComment (stripLits l.data)

/-- Brace-count one line: `none` means the matching close brace is on this
line; otherwise the updated `(depth, found_open)` state. -/
def scanChars : List Char → Int → Bool → Option (Int × Bool)
  | [], d, f => some (d, f)
  | c :: cs, d, f =>
    if c = '\x7b' then scanChars cs (d + 1) true
    else if c = '\x7d' then
      if f && d - 1 = 0 then none else scanChars cs (d - 1) f
    else scanChars cs d f

/-- `find_brace_block_end`'s scan loop over the remaining lines. -/
def fbbeGo : List String → Nat → Int → Bool → Option Nat
  | [], _, _, _ => none
  | l :: ls, i, d, f =>
    match scanChars (prepLine l) d f with
    | none => some i
    | some (d', f') => fbbeGo ls (i + 1) d' f'

/-- `find_brace_block_end(lines, start_idx)`. -/
def find_brace_block_end (lines : List String) (start : Nat) : Option Nat :=
  fbbeGo (lines.drop start) start 0 false

/-! ## Line classifiers and function detection -/

/-- `is_gui_include(line)`. -/
def is_gui_include (line : String) : Bool :=
  let stripped := pstrip line
  pstarts stripped "#include" && GUI_INCLUDE_PATTERNS.any (fun p => reSearch p stripped)

/-- `is_gui_data_struct_start(line)`. -/
def is_gui_data_struct_start (line : String) : Bool :=
  reSearch GUI_DATA_STRUCT_RE line

/-- `is_forward_declaration(line)`. -/
def is_forward_declaration (line : String) : Bool :=
  reMatches FWD_END_RE (pstrip line)

/-- `get_function_name(line)`: `(name, is_static)` of a function-definition
line, where `is_static` is the Python substring test
`"static" in m.group("qualifiers")`. -/
def get_function_name (line : String) : Option (String × Bool) :=
  let stripped := pstrip line
  if stripped = "" || pstarts stripped "#" || pstarts stripped "//" || pstarts stripped "/*" then
    none
  else
    match reCaps FUNC_DEF_RE stripped with
    | some caps =>
      match caps.find? (fun e => e.1 = 3), caps.find? (fun e => e.1 = 1) with
      | some nm, some quals =>
        if nm.2 ∈ NOT_FUNCTIONS then none else some (nm.2, strContains quals.2 "static")
      | _, _ => none
    | none => none

/-- `is_explicitly_gui_function(name)`. -/
def is_explicitly_gui_function (nm : String) : Bool :=
  nm ∈ GUI_FUNCTION_NAMES || GUI_FUNCTION_NAME_STARTS.any (fun p => pstarts nm p)

/-- `function_body_has_gui_tokens(func_body)`. -/
def function_body_has_gui_tokens (body : String) : Bool :=
  GUI_TOKENS.any (fun t => strContains body t)

/-! ## The function map -/

/-- A function's record: `(start, end, is_static)`. -/
abbrev Span := Nat × Nat × Bool

/-- The function map, keeping Python's dict insertion order. -/
abbrev FuncMap := List (String × Span)

/-- Python dict assignment `m[k] = v`: replace in place if present
(keeping the key's original position), else append. -/
def fmInsert (m : FuncMap) (k : String) (v : Span) : FuncMap :=
  if m.any (fun e => e.1 = k) then m.map (fun e => if e.1 = k then (k, v) else e)
  else m ++ [(k, v)]

/-- Python dict lookup `m[k]` / `k in m`. -/
def fmLookup (m : FuncMap) (k : String) : Option Span :=
  (m.find? (fun e => e.1 = k)).map (fun e => e.2)

/-- The keys of a `FuncMap`, as a `Finset`. -/
def fmKeys (m : FuncMap) : Finset String := (m.map Prod.fst).toFinset

/-- `"\n".join(lines[start : end + 1])`, the body text of a span (note the
lines normally already end in a newline; `join` adds one more between
them, exactly as in Python). -/
def bodyOf (lines : List String) (sp : Span) : String :=
  String.intercalate "\n" ((lines.drop sp.1).take (sp.2.1 + 1 - sp.1))

/-- The scan loop of `build_function_map` (fuel-bounded; each step advances
the index by at least one, so `|lines| + 1` fuel always reaches the end). -/
def bfmGo (lines : List String) : Nat → Nat → FuncMap → FuncMap
  | 0, _, m => m
  | fuel + 1, i, m =>
    if i < lines.length then
      match get_function_name (lines.getD i "") with
      | some (nm, st) =>
        if is_forward_declaration (lines.getD i "") then bfmGo lines fuel (i + 1) m
        else if i + 1 < lines.length &&
            is_forward_declaration (lines.getD i "" ++ lines.getD (i + 1) "") then
          bfmGo lines fuel (i + 1) m
        else
          match find_brace_block_end lines i with
          | some e => bfmGo lines fuel (e + 1) (fmInsert m nm (i, e, st))
          | none => bfmGo lines fuel (i + 1) m
      | none => bfmGo lines fuel (i + 1) m
    else m

/-- `build_function_map(lines)`. -/
def build_function_map (lines : List String) : FuncMap :=
  bfmGo lines (lines.length + 1) 0 []

/-! ## `has_external_ref` -/

/-- Is line `j` inside the span of some function of `skip` (looked up in the
function map)? -/
def inSkipSpan (fm : FuncMap) (skip : Finset String) (j : Nat) : Bool :=
  decide (∃ sn ∈ skip, ∃ sp : Span, fmLookup fm sn = some sp ∧ sp.1 ≤ j ∧ j ≤ sp.2.1)

/-- The forward-declaration capture of a (stripped) line, as used by
`has_external_ref` and `remove_forward_declarations`. -/
def fwdDeclName (stripped : String) : Option String :=
  reGroup FORWARD_DECL_RE stripped 1

/-- Does line `j` count as an external reference to `name` (span `(s,e)`)? -/
def refLine (nm : String) (lines : List String) (fm : FuncMap) (skip : Finset String)
    (s e j : Nat) : Bool :=
  if s ≤ j && j ≤ e then false
  else if inSkipSpan fm skip j then false
  else if fwdDeclName (pstrip (lines.getD j "")) = some nm then false
  else reSearch (wordRE nm) (lines.getD j "")

/-- `has_external_ref(name, lines, func_map, skip_set)`. -/
def has_external_ref (nm : String) (lines : List String) (fm : FuncMap)
    (skip : Finset String) : Bool :=
  match fmLookup fm nm with
  | none => true
  | some (s, e, _) => (List.range lines.length).any (refLine nm lines fm skip s e)

/-! ## The removal classifier (`find_all_functions_to_remove`)

Each `while changed: for name in func_map: ...` loop of the Python code is
one `sweep` (a fold over the map in its iteration order that may insert
names) iterated by `sweepFix` until it reaches a fixed point; the fuel
`|func_map| + 1` always suffices, because each changing sweep adds at least
one new key (proved below as `sweepFix_isFix`). -/

/-- The body of a `while changed` loop for one map entry: skip it if
already removed, else insert it if the predicate `p` holds of the current
removal set. -/
def sweepStep (p : Finset String → String → Span → Bool)
    (acc : Finset String) (e : String × Span) : Finset String :=
  if e.1 ∈ acc then acc else if p acc e.1 e.2 then insert e.1 acc else acc

/-- One pass of a `while changed` loop, over the map in iteration order. -/
def sweep (p : Finset String → String → Span → Bool) (fm : FuncMap)
    (S : Finset String) : Finset String :=
  fm.foldl (sweepStep p) S

/-- Iterate `sweep` until it no longer changes (fuel-bounded). -/
def sweepFix (p : Finset String → String → Span → Bool) (fm : FuncMap) :
    Nat → Finset String → Finset String
  | 0, S => S
  | fuel + 1, S =>
    let S' := sweep p fm S
    if S' = S then S else sweepFix p fm fuel S'

/-- The Phase-2 insertion condition: internal linkage, not protected, body
has GUI tokens, and no external reference outside the removal set. -/
def phase2p (lines : List String) (fm : FuncMap) (S : Finset String)
    (nm : String) (sp : Span) : Bool :=
  !(decide (nm ∈ KEEP_FUNCTIONS)) && sp.2.2 &&
    function_body_has_gui_tokens (bodyOf lines sp) && !(has_external_ref nm lines fm S)

/-- The Phase-4 insertion condition: like Phase 2 but without the GUI-token
requirement. -/
def phase4p (lines : List String) (fm : FuncMap) (S : Finset String)
    (nm : String) (sp : Span) : Bool :=
  !(decide (nm ∈ KEEP_FUNCTIONS)) && sp.2.2 && !(has_external_ref nm lines fm S)

/-- Phase 1: seed with the explicitly-listed GUI functions. -/
def phase1 (fm : FuncMap) : Finset String :=
  fm.foldl (fun acc e =>
    if e.1 ∈ KEEP_FUNCTIONS then acc
    else if is_explicitly_gui_function e.1 then insert e.1 acc else acc) ∅

/-- Phase 2: iterative removal of GUI-token static functions. -/
def phase2 (lines : List String) (fm : FuncMap) (S : Finset String) : Finset String :=
  sweepFix (phase2p lines fm) fm (fm.length + 1) S

/-- The collection of `remaining_gui` functions in Phase 3: not yet
removed, not protected, internal linkage, body has GUI tokens. -/
def rgFold (lines : List String) (fm : FuncMap) (S : Finset String) : Finset String :=
  fm.foldl (fun acc e =>
    if e.1 ∈ S ∨ e.1 ∈ KEEP_FUNCTIONS ∨ e.2.2.2 = false then acc
    else if function_body_has_gui_tokens (bodyOf lines e.2) then insert e.1 acc else acc) ∅

/-- Phase 3: cycle handling for the remaining GUI-token static functions
(the Python `if`'s two branches perform the same update). -/
def phase3 (lines : List String) (fm : FuncMap) (S : Finset String) : Finset String :=
  let rg := rgFold lines fm S
  if rg = ∅ then S
  else
    let cr := rg.filter (fun nm => has_external_ref nm lines fm (S ∪ rg) = false)
    if cr = rg then S ∪ cr else S ∪ cr

/-- Phase 4: orphan removal without the token requirement. -/
def phase4 (lines : List String) (fm : FuncMap) (S : Finset String) : Finset String :=
  sweepFix (phase4p lines fm) fm (fm.length + 1) S

/-- `find_all_functions_to_remove(lines, func_map)`. -/
def find_all_functions_to_remove (lines : List String) (fm : FuncMap) : Finset String :=
  phase4 lines fm (phase3 lines fm (phase2 lines fm (phase1 fm)))

/-! ## `strip_gui_data_in_function` -/

/-- The `while next_i <= func_end and lines[next_i].strip() == ""` loop. -/
def skipBlankLines (lines : List String) (fend : Nat) : Nat → Nat → Nat
  | 0, i => i
  | fuel + 1, i =>
    if i ≤ fend && pstrip (lines.getD i "") = "" then skipBlankLines lines fend fuel (i + 1)
    else i

/-- The `while else_open <= else_block_end: if "{" in lines[else_open]: break`
loop: first line containing a brace, else `else_block_end + 1`. -/
def elseOpenGo (lines : List String) (ebe : Nat) : Nat → Nat → Nat
  | 0, i => i
  | fuel + 1, i =>
    if i ≤ ebe then
      if strContains (lines.getD i "") "\x7b" then i else elseOpenGo lines ebe fuel (i + 1)
    else i

/-- The re-indentation applied to copied else-body lines: drop four (or two)
spaces after the `if`'s indentation. -/
def reindent (indent l : String) : String :=
  if pstarts l (indent ++ "    ") then indent ++ ⟨l.data.drop (indent.length + 4)⟩
  else if pstarts l (indent ++ "  ") then indent ++ ⟨l.data.drop (indent.length + 2)⟩
  else l

/-- The skip target of a removed block: the line after the block's end,
provided the pattern matched and the end is found within the function. -/
def blockJump (lines : List String) (fend i : Nat) (cond : Bool) : Option Nat :=
  if cond then
    match find_brace_block_end lines i with
    | some be => if be ≤ fend then some (be + 1) else none
    | none => none
  else none

/-- The `if (g) {...} [else {...}]` handling of the rewriter, for binding
variable `g` at line `i`: `none` means fall through to the next pattern;
`some (emit, ni)` deletes up to `ni`, emitting the re-indented else-body
`emit` (empty when there is no usable `else`). -/
def elsePlan (lines : List String) (fend i : Nat) (g : String) :
    Option (List String × Nat) :=
  match reGroup (IF_VAR_RE g) (lines.getD i "") 1 with
  | none => none
  | some indent =>
    match find_brace_block_end lines i with
    | none => none
    | some ibe =>
      if ibe ≤ fend then
        let ni := skipBlankLines lines fend (fend + 2) (ibe + 1)
        if ni ≤ fend && reMatches ELSE_RE (lines.getD ni "") then
          match find_brace_block_end lines ni with
          | some ebe =>
            if ebe ≤ fend then
              let eo := elseOpenGo lines ebe (ebe + 2) ni
              some ((List.range' (eo + 1) (ebe - (eo + 1))).map
                      (fun k => reindent indent (lines.getD k "")), ebe + 1)
            else some ([], ibe + 1)
          | none => some ([], ibe + 1)
        else some ([], ibe + 1)
      else none

/-- The main loop of `strip_gui_data_in_function`: fuel-bounded, carrying
the optional bound variable (`gui_data_var`) and the current line index.
Mirrors the Python control flow including every fallthrough: a pattern
whose block end is missing or beyond `func_end` falls through to the next
pattern and ultimately to the verbatim append. -/
def sgGo (lines : List String) (fend : Nat) : Nat → Option String → Nat → List String
  | 0, _, _ => []
  | fuel + 1, var, i =>
    if i > fend then []
    else
      match reGroup GD_ASSIGN_RE (lines.getD i "") 2 with
      | some v => sgGo lines fend fuel (some v) (i + 1)
      | none =>
        if reMatches GD_CAST_SET_RE (lines.getD i "") then sgGo lines fend fuel var (i + 1)
        else if reMatches IF_GD_ONE_RE (lines.getD i "") then sgGo lines fend fuel var (i + 1)
        else
          match blockJump lines fend i (reMatches IF_GD_RE (lines.getD i "")) with
          | some ni => sgGo lines fend fuel var ni
          | none =>
            match var with
            | none => lines.getD i "" :: sgGo lines fend fuel var (i + 1)
            | some g =>
              match elsePlan lines fend i g with
              | some en => en.1 ++ sgGo lines fend fuel var en.2
              | none =>
                match blockJump lines fend i (reMatches (IF_VAR_AND_RE g) (lines.getD i "")) with
                | some ni => sgGo lines fend fuel var ni
                | none =>
                  match blockJump lines fend i (reMatches (IF_AND_VAR_RE g) (lines.getD i "")) with
                  | some ni => sgGo lines fend fuel var ni
                  | none =>
                    if reMatches (VAR_SET_RE g) (lines.getD i "") then
                      sgGo lines fend fuel var (i + 1)
                    else lines.getD i "" :: sgGo lines fend fuel var (i + 1)

/-- `strip_gui_data_in_function(lines, func_start, func_end)`. -/
def strip_gui_data_in_function (lines : List String) (fstart fend : Nat) : List String :=
  sgGo lines fend (lines.length + 1) none fstart

/-! ## The assembly and cleanup passes of `strip_iop` -/

/-- Pass 2: remove GUI includes (plain and commented-out), the gui-data
struct, and the definitions of removed functions. -/
def pass2Go (lines : List String) (rem : Finset String) : Nat → Nat → List String
  | 0, _ => []
  | fuel + 1, i =>
    if i < lines.length then
      let line := lines.getD i ""
      if is_gui_include line then pass2Go lines rem fuel (i + 1)
      else if pstarts (pstrip line) "//" && strContains (pstrip line) "#include" &&
          is_gui_include (pstrip (lstripSlash (pstrip line))) then
        pass2Go lines rem fuel (i + 1)
      else
        let structJump : Option Nat :=
          if is_gui_data_struct_start line then find_brace_block_end lines i else none
        match structJump with
        | some e => pass2Go lines rem fuel (e + 1)
        | none =>
          let funcJump : Option Nat :=
            match get_function_name line with
            | some nmst =>
              if nmst.1 ∈ rem ∧ nmst.1 ∉ KEEP_FUNCTIONS ∧ ¬is_forward_declaration line then
                find_brace_block_end lines i
              else none
            | none => none
          match funcJump with
          | some e => pass2Go lines rem fuel (e + 1)
          | none => line :: pass2Go lines rem fuel (i + 1)
    else []

/-- Pass 3 (and the cleanup after pass 5): `remove_forward_declarations`. -/
def remove_forward_declarations (lines : List String) (removed : Finset String) :
    List String :=
  lines.foldr (fun l acc =>
    match fwdDeclName (pstrip l) with
    | some n => if n ∈ removed then acc else l :: acc
    | none => l :: acc) []

/-- Splicing one rewritten function body back into the line list
(`output_lines[start : end + 1] = stripped_body`). -/
def spliceStrip (out : List String) (e : String × Nat × Nat) : List String :=
  out.take e.2.1 ++ strip_gui_data_in_function out e.2.1 e.2.2 ++ out.drop (e.2.2 + 1)

/-- Stable descending insertion by start line (Python
`sort(key=lambda x: x[1], reverse=True)`). -/
def insertDesc (l : List (String × Nat × Nat)) (x : String × Nat × Nat) :
    List (String × Nat × Nat) :=
  match l with
  | [] => [x]
  | y :: ys => if x.2.1 > y.2.1 then x :: y :: ys else y :: insertDesc ys x

/-- Pass 4: strip gui_data references in every remaining function whose body
mentions `gui_data`, processing spans in reverse start order. -/
def pass4 (out : List String) : List String :=
  let km := build_function_map out
  let fts := km.filterMap (fun e =>
    if strContains (bodyOf out e.2) "gui_data" || strContains (bodyOf out e.2) "_gui_data_t"
    then some (e.1, e.2.1, e.2.2.1) else none)
  (fts.foldl insertDesc []).foldl spliceStrip out

/-- The per-line action of Pass 4b: a one-line `if (self->widget)` with a
`gtk_stack`/`gtk_widget` call becomes an empty line; any other line whose
stripped text has `self->widget` with `gtk_stack_`/`gtk_widget_` is
dropped; everything else is kept. -/
def pass4bStep (line : String) : List String :=
  let stripped := pstrip line
  if reMatches IF_WIDGET_RE stripped &&
      (strContains stripped "gtk_stack" || strContains stripped "gtk_widget") then [""]
  else if strContains stripped "self->widget" &&
      (strContains stripped "gtk_stack_" || strContains stripped "gtk_widget_") then []
  else [line]

/-- Pass 4b. -/
def pass4b (lines : List String) : List String := lines.flatMap pass4bStep

/-- The Pass-5 orphan condition (note: no `is_static` requirement here,
faithful to the source). -/
def phase5p (out : List String) (pm : FuncMap) (S : Finset String)
    (nm : String) (sp : Span) : Bool :=
  !(decide (nm ∈ KEEP_FUNCTIONS)) && function_body_has_gui_tokens (bodyOf out sp) &&
    !(has_external_ref nm out pm S)

/-- Pass 5's orphan set over the current output. -/
def post_orphans (out : List String) : Finset String :=
  let pm := build_function_map out
  sweepFix (phase5p out pm) pm (pm.length + 1) ∅

/-- Pass 5's removal loop over the output lines. -/
def pass5Go (out : List String) (orphans : Finset String) : Nat → Nat → List String
  | 0, _ => []
  | fuel + 1, i =>
    if i < out.length then
      let line := out.getD i ""
      let j : Option Nat :=
        match get_function_name line with
        | some nmst =>
          if nmst.1 ∈ orphans ∧ ¬is_forward_declaration line then find_brace_block_end out i
          else none
        | none => none
      match j with
      | some e => pass5Go out orphans fuel (e + 1)
      | none => line :: pass5Go out orphans fuel (i + 1)
    else []

/-- Pass 5: remove functions orphaned by the rewriting (when the orphan set
is empty this equals the identity, like the guarded Python code). -/
def pass5 (out : List String) : List String :=
  let orphans := post_orphans out
  remove_forward_declarations (pass5Go out orphans (out.length + 1) 0) orphans

/-- Is a line dropped by Pass 6 (stray gui_data declaration / cast lines)? -/
def pass6Drop (l : String) : Bool :=
  let stripped := pstrip l
  (reMatches GD_DECL_RE stripped && strContains stripped "self->gui_data") ||
    reMatches GD_CAST_RE stripped

/-- Pass 6. -/
def pass6 (lines : List String) : List String :=
  lines.foldr (fun l acc => if pass6Drop l then acc else l :: acc) []

/-- Pass 7: collapse runs of more than two blank lines. -/
def pass7Go : List String → Nat → List String
  | [], _ => []
  | l :: ls, cnt =>
    if pstrip l = "" then
      if cnt + 1 ≤ 2 then l :: pass7Go ls (cnt + 1) else pass7Go ls (cnt + 1)
    else l :: pass7Go ls 0

/-- Pass 7. -/
def pass7 (lines : List String) : List String := pass7Go lines 0

/-! ## The whole pipeline -/

/-- The classifier's removal set of an input (Passes 1–4 of the analysis). -/
def classifierSet (lines : List String) : Finset String :=
  find_all_functions_to_remove lines (build_function_map lines)

/-- The line list after passes 2, 3, 4 and 4b. -/
def stage4b (lines : List String) : List String :=
  pass4b (pass4 (remove_forward_declarations
    (pass2Go lines (classifierSet lines) (lines.length + 1) 0) (classifierSet lines)))

/-- The final `to_remove` set reported by `strip_iop` (classifier set
updated with the post-assembly orphans). -/
def removedNames (lines : List String) : Finset String :=
  classifierSet lines ∪ post_orphans (stage4b lines)

/-- `strip_iop`, as a function from input lines to output lines. -/
def strip_iop_lines (lines : List String) : List String :=
  pass7 (pass6 (pass5 (stage4b lines)))

/-! ## The command-line wrapper `main` -/

/-- The observable outcome of `main`. -/
inductive CliOutcome : Type where
  | usage : CliOutcome
  | missingInput : CliOutcome
  | success : CliOutcome
deriving DecidableEq, Repr

/-- `main()`: `sys.argv` (program name included) and an oracle for
`os.path.isfile`; returns the reported outcome and exit code. -/
def mainResult (argv : List String) (isFile : String → Bool) : CliOutcome × Nat :=
  if argv.length ≠ 3 then (.usage, 1)
  else if isFile (argv.getD 1 "") = false then (.missingInput, 1)
  else (.success, 0)

/-! ## Predicates used by the theorems -/

/-- `p` is monotone in the removal set. -/
def MonoPred (p : Finset String → String → Span → Bool) : Prop :=
  ∀ S S' nm sp, S ⊆ S' → p S nm sp = true → p S' nm sp = true

/-- `T` is closed under one `while changed` pass over `fm` with predicate `p`. -/
def SweepClosed (p : Finset String → String → Span → Bool) (fm : FuncMap)
    (T : Finset String) : Prop :=
  ∀ e ∈ fm, p T e.1 e.2 = true → e.1 ∈ T

/-- A line whose stripped text mentions `self->widget` together with a
`gtk_stack_` or `gtk_widget_` call (the subject of claim C9). -/
def widgetTokens (l : String) : Bool :=
  strContains (pstrip l) "self->widget" &&
    (strContains (pstrip l) "gtk_stack_" || strContains (pstrip l) "gtk_widget_")

/-- A line that contributes no brace to `find_brace_block_end`'s counting
(after literal masking and comment stripping). -/
def braceFree (l : String) : Bool :=
  (prepLine l).all (fun c => !(c = '\x7b') && !(c = '\x7d'))

/-- A line on which, with no gui_data binding recorded, the main loop of
`strip_gui_data_in_function` matches none of its patterns, so the line is
copied verbatim. -/
def inertNone (l : String) : Bool :=
  (reGroup GD_ASSIGN_RE l 2).isNone && !(reMatches GD_CAST_SET_RE l) &&
    !(reMatches IF_GD_ONE_RE l) && !(reMatches IF_GD_RE l)

/-! ## Concrete inputs used by counterexamples and witnesses -/

/-- A minimal module whose protected `process` contains a widget-cleanup
line (claim C1). -/
def exC1 : List String :=
  ["static void process(dt_iop_module_t *self)\n",
   "\x7b\n",
   "  gtk_widget_show(self->widget);\n",
   "\x7d\n"]

/-- A function whose brace block never closes before the end of file, with
a widget line inside it (claim C4). -/
def exC4 : List String :=
  ["static void broken(void)\n",
   "\x7b\n",
   "  gtk_widget_show(self->widget);\n"]

/-- A rewriter input whose retained `process` contains
`if (self->gui_data) { A } else { B }` (claim C5). -/
def exC5 : List String :=
  ["static void process(dt_iop_module_t *self)\n",
   "\x7b\n",
   "  if(self->gui_data)\n",
   "  \x7b\n",
   "    a();\n",
   "  \x7d\n",
   "  else\n",
   "  \x7b\n",
   "    b();\n",
   "  \x7d\n",
   "\x7d\n"]

/-- A removable GUI function followed by a forward declaration of it whose
parameter list spans two lines (claim C6). -/
def exC6 : List String :=
  ["static void gui_helper(void)\n",
   "\x7b\n",
   "  gtk_widget_show(w);\n",
   "\x7d\n",
   "static void gui_helper(int a,\n",
   "                       int b);\n"]

/-- Two removable static GUI functions (witnesses for C1 and C2). -/
def exW2 : List String :=
  ["static void gui_aux(void)\n",
   "\x7b\n",
   "  gtk_widget_show(w);\n",
   "\x7d\n",
   "static void helper2(void)\n",
   "\x7b\n",
   "  GtkWidget *w;\n",
   "\x7d\n"]

/-- A retained function with a gui_data binding assignment followed by a
field store through the binding (witness for C10). -/
def exC10 : List String :=
  ["static void process(dt_iop_module_t *self)\n",
   "\x7b\n",
   "  dt_iop_zz_gui_data_t *g = self->gui_data;\n",
   "  g->val = 1;\n",
   "  work();\n",
   "\x7d\n"]

/-- The parametric C5 construct: a function whose body is
`if (self->gui_data) { A } else { B }`, for arbitrary then-body `A` and
else-body `B`. -/
def rawIfElseLines (A B : List String) : List String :=
  "static void process(dt_iop_module_t *self)\n" ::
    "\x7b\n" ::
      "  if(self->gui_data)\n" ::
        "  \x7b\n" ::
          (A ++ "  \x7d\n" :: "  else\n" :: "  \x7b\n" :: (B ++ ["  \x7d\n", "\x7d\n"]))

/-! # Theorems -/

set_option maxRecDepth 100000
set_option maxHeartbeats 4000000
set_option linter.constructorNameAsVariable false

/-! ## Fixed-point machinery for the `while changed` loops -/

theorem fst_mem_fmKeys (fm : FuncMap) (e : String × Span) (he : e ∈ fm) :
    e.1 ∈ fmKeys fm := by
  have h : e.1 ∈ fm.map Prod.fst := List.mem_map_of_mem Prod.fst he
  simpa [fmKeys] using h

theorem sweepStep_subset (p : Finset String → String → Span → Bool)
    (acc : Finset String) (e : String × Span) : acc ⊆ sweepStep p acc e := by
  unfold sweepStep
  by_cases h1 : e.1 ∈ acc
  · simp [h1]
  · by_cases h2 : p acc e.1 e.2
    · simp [h1, h2, Finset.subset_insert]
    · simp [h1, h2]

theorem mem_sweepStep (p : Finset String → String → Span → Bool)
    (acc : Finset String) (e : String × Span) (x : String)
    (hx : x ∈ sweepStep p acc e) : x ∈ acc ∨ x = e.1 := by
  unfold sweepStep at hx
  by_cases h1 : e.1 ∈ acc
  · simp [h1] at hx; exact Or.inl hx
  · by_cases h2 : p acc e.1 e.2
    · simp [h1, h2, Finset.mem_insert] at hx; tauto
    · simp [h1, h2] at hx; exact Or.inl hx

theorem sweep_subset (p : Finset String → String → Span → Bool) :
    ∀ (fm : FuncMap) (S : Finset String), S ⊆ sweep p fm S := by
  intro fm
  induction fm with
  | nil => intro S; simp [sweep]
  | cons e fm ih =>
    intro S
    have h1 : S ⊆ sweepStep p S e := sweepStep_subset p S e
    have h2 : sweepStep p S e ⊆ sweep p fm (sweepStep p S e) := ih _
    simpa [sweep] using h1.trans h2

theorem mem_sweep (p : Finset String → String → Span → Bool) :
    ∀ (fm : FuncMap) (S : Finset String) (x : String), x ∈ sweep p fm S →
      x ∈ S ∨ ∃ e ∈ fm, x = e.1 := by
  intro fm
  induction fm with
  | nil => intro S x hx; simp [sweep] at hx; exact Or.inl hx
  | cons e fm ih =>
    intro S x hx
    rcases ih (sweepStep p S e) x (by simpa [sweep] using hx) with h | ⟨e', he', hx'⟩
    · rcases mem_sweepStep p S e x h with h' | h'
      · exact Or.inl h'
      · exact Or.inr ⟨e, by simp, h'⟩
    · exact Or.inr ⟨e', by simp [he'], hx'⟩

theorem sweep_le (p : Finset String → String → Span → Bool) (hp : MonoPred p) :
    ∀ (fm : FuncMap) (S T : Finset String), SweepClosed p fm T → S ⊆ T →
      sweep p fm S ⊆ T := by
  intro fm
  induction fm with
  | nil => intro S T _ hST; simpa [sweep] using hST
  | cons e fm ih =>
    intro S T hT hST
    have hstep : sweepStep p S e ⊆ T := by
      unfold sweepStep
      by_cases h1 : e.1 ∈ S
      · simpa [h1] using hST
      · by_cases h2 : p S e.1 e.2
        · have : e.1 ∈ T := hT e (by simp) (hp S T e.1 e.2 hST h2)
          simp only [h1, if_false, h2, if_true]
          exact Finset.insert_subset this hST
        · simpa [h1, h2] using hST
    have hTtail : SweepClosed p fm T := fun e' he' => hT e' (by simp [he'])
    simpa [sweep] using ih (sweepStep p S e) T hTtail hstep

theorem sweep_eq_closed (p : Finset String → String → Span → Bool) :
    ∀ (fm : FuncMap) (S : Finset String), sweep p fm S = S → SweepClosed p fm S := by
  intro fm
  induction fm with
  | nil => intro S _ e he; simp at he
  | cons e fm ih =>
    intro S h
    have hs1 : S ⊆ sweepStep p S e := sweepStep_subset p S e
    have hs2 : sweepStep p S e ⊆ sweep p fm (sweepStep p S e) := sweep_subset p fm _
    have hstep : sweepStep p S e = S := by
      apply Finset.Subset.antisymm
      · calc sweepStep p S e ⊆ sweep p fm (sweepStep p S e) := hs2
          _ = S := by simpa [sweep] using h
      · exact hs1
    intro e' he' hpe
    rcases List.mem_cons.mp he' with rfl | htail
    · by_cases h1 : e'.1 ∈ S
      · exact h1
      · have : insert e'.1 S = S := by
          have := hstep
          unfold sweepStep at this
          simp only [h1, if_false, hpe, if_true] at this
          exact this
        rw [← this]; exact Finset.mem_insert_self _ _
    · have htl : sweep p fm S = S := by
        have : sweep p (e :: fm) S = sweep p fm (sweepStep p S e) := by simp [sweep]
        rw [this, hstep] at h; exact h
      exact ih S htl e' htail hpe

theorem sweepFix_subset (p : Finset String → String → Span → Bool) (fm : FuncMap) :
    ∀ (fuel : Nat) (S : Finset String), S ⊆ sweepFix p fm fuel S := by
  intro fuel
  induction fuel with
  | zero => intro S; simp [sweepFix]
  | succ n ih =>
    intro S
    unfold sweepFix
    by_cases h : sweep p fm S = S
    · simp [h]
    · simp only [h, if_false]
      exact (sweep_subset p fm S).trans (ih (sweep p fm S))

theorem mem_sweepFix (p : Finset String → String → Span → Bool) (fm : FuncMap) :
    ∀ (fuel : Nat) (S : Finset String) (x : String), x ∈ sweepFix p fm fuel S →
      x ∈ S ∨ x ∈ fmKeys fm := by
  intro fuel
  induction fuel with
  | zero => intro S x hx; simp [sweepFix] at hx; exact Or.inl hx
  | succ n ih =>
    intro S x hx
    unfold sweepFix at hx
    by_cases h : sweep p fm S = S
    · simp [h] at hx; exact Or.inl hx
    · simp only [h, if_false] at hx
      rcases ih (sweep p fm S) x hx with h' | h'
      · rcases mem_sweep p fm S x h' with h'' | ⟨e, he, rfl⟩
        · exact Or.inl h''
        · exact Or.inr (fst_mem_fmKeys fm e he)
      · exact Or.inr h'

theorem sweepFix_le (p : Finset String → String → Span → Bool) (hp : MonoPred p)
    (fm : FuncMap) (T : Finset String) (hT : SweepClosed p fm T) :
    ∀ (fuel : Nat) (S : Finset String), S ⊆ T → sweepFix p fm fuel S ⊆ T := by
  intro fuel
  induction fuel with
  | zero => intro S hST; simpa [sweepFix] using hST
  | succ n ih =>
    intro S hST
    unfold sweepFix
    by_cases h : sweep p fm S = S
    · simpa [h] using hST
    · simp only [h, if_false]
      exact ih (sweep p fm S) (sweep_le p hp fm S T hT hST)

theorem sweep_subset_union_keys (p : Finset String → String → Span → Bool)
    (fm : FuncMap) (S : Finset String) : sweep p fm S ⊆ S ∪ fmKeys fm := by
  intro x hx
  rcases mem_sweep p fm S x hx with h | ⟨e, he, rfl⟩
  · exact Finset.mem_union_left _ h
  · exact Finset.mem_union_right _ (fst_mem_fmKeys fm e he)

theorem sweepFix_isFix (p : Finset String → String → Span → Bool) (fm : FuncMap) :
    ∀ (fuel : Nat) (S : Finset String), (fmKeys fm \ S).card < fuel →
      sweep p fm (sweepFix p fm fuel S) = sweepFix p fm fuel S := by
  intro fuel
  induction fuel with
  | zero => intro S h; omega
  | succ n ih =>
    intro S hcard
    unfold sweepFix
    by_cases h : sweep p fm S = S
    · simp only [h, if_true]
    · simp only [h, if_false]
      apply ih
      -- a changing sweep consumes at least one key outside `S`
      have hSS : S ⊆ sweep p fm S := sweep_subset p fm S
      have hne : ∃ x, x ∈ sweep p fm S ∧ x ∉ S := by
        by_contra hno
        push_neg at hno
        exact h (Finset.Subset.antisymm (fun x hx => hno x hx) hSS)
      rcases hne with ⟨x, hxS', hxS⟩
      have hxkeys : x ∈ fmKeys fm := by
        rcases Finset.mem_union.mp (sweep_subset_union_keys p fm S hxS') with h' | h'
        · exact absurd h' hxS
        · exact h'
      have hss : fmKeys fm \ sweep p fm S ⊂ fmKeys fm \ S := by
        constructor
        · exact Finset.sdiff_subset_sdiff (Finset.Subset.refl _) hSS
        · intro hsub
          have hx1 : x ∈ fmKeys fm \ S := Finset.mem_sdiff.mpr ⟨hxkeys, hxS⟩
          have hx2 : x ∈ fmKeys fm \ sweep p fm S := hsub hx1
          exact (Finset.mem_sdiff.mp hx2).2 hxS'
      have := Finset.card_lt_card hss
      omega

theorem sweepFix_closed (p : Finset String → String → Span → Bool) (fm : FuncMap)
    (fuel : Nat) (S : Finset String) (h : (fmKeys fm \ S).card < fuel) :
    SweepClosed p fm (sweepFix p fm fuel S) :=
  sweep_eq_closed p fm _ (sweepFix_isFix p fm fuel S h)

theorem fmKeys_card_le (fm : FuncMap) : (fmKeys fm).card ≤ fm.length := by
  calc (fmKeys fm).card ≤ (fm.map Prod.fst).length := List.toFinset_card_le _
    _ = fm.length := List.length_map _ _

theorem sdiff_keys_card_lt (fm : FuncMap) (S : Finset String) :
    (fmKeys fm \ S).card < fm.length + 1 := by
  have h1 : (fmKeys fm \ S).card ≤ (fmKeys fm).card :=
    Finset.card_le_card (Finset.sdiff_subset)
  have h2 := fmKeys_card_le fm
  omega

theorem sweepFix_perm (p : Finset String → String → Span → Bool) (hp : MonoPred p)
    (fm₁ fm₂ : FuncMap) (hperm : fm₁.Perm fm₂) (S : Finset String) :
    sweepFix p fm₁ (fm₁.length + 1) S = sweepFix p fm₂ (fm₂.length + 1) S := by
  have hcl₁ : SweepClosed p fm₁ (sweepFix p fm₁ (fm₁.length + 1) S) :=
    sweepFix_closed p fm₁ _ S (sdiff_keys_card_lt fm₁ S)
  have hcl₂ : SweepClosed p fm₂ (sweepFix p fm₂ (fm₂.length + 1) S) :=
    sweepFix_closed p fm₂ _ S (sdiff_keys_card_lt fm₂ S)
  have hcl₁₂ : SweepClosed p fm₂ (sweepFix p fm₁ (fm₁.length + 1) S) :=
    fun e he => hcl₁ e (hperm.mem_iff.mpr he)
  have hcl₂₁ : SweepClosed p fm₁ (sweepFix p fm₂ (fm₂.length + 1) S) :=
    fun e he => hcl₂ e (hperm.mem_iff.mp he)
  apply Finset.Subset.antisymm
  · exact sweepFix_le p hp fm₁ _ hcl₂₁ _ S (sweepFix_subset p fm₂ _ S)
  · exact sweepFix_le p hp fm₂ _ hcl₁₂ _ S (sweepFix_subset p fm₁ _ S)

theorem sweep_pred (p : Finset String → String → Span → Bool) (Q : String → Prop)
    (hQ : ∀ S nm sp, p S nm sp = true → Q nm) :
    ∀ (fm : FuncMap) (S : Finset String), (∀ x ∈ S, Q x) → ∀ x ∈ sweep p fm S, Q x := by
  intro fm
  induction fm with
  | nil => intro S hS x hx; exact hS x (by simpa [sweep] using hx)
  | cons e fm ih =>
    intro S hS x hx
    apply ih (sweepStep p S e) _ x (by simpa [sweep] using hx)
    intro y hy
    unfold sweepStep at hy
    by_cases h1 : e.1 ∈ S
    · exact hS y (by simpa [h1] using hy)
    · by_cases h2 : p S e.1 e.2
      · simp only [h1, if_false, h2, if_true, Finset.mem_insert] at hy
        rcases hy with rfl | hy
        · exact hQ S _ e.2 h2
        · exact hS y hy
      · exact hS y (by simpa [h1, h2] using hy)

theorem sweepFix_pred (p : Finset String → String → Span → Bool) (Q : String → Prop)
    (hQ : ∀ S nm sp, p S nm sp = true → Q nm) (fm : FuncMap) :
    ∀ (fuel : Nat) (S : Finset String), (∀ x ∈ S, Q x) →
      ∀ x ∈ sweepFix p fm fuel S, Q x := by
  intro fuel
  induction fuel with
  | zero => intro S hS x hx; exact hS x (by simpa [sweepFix] using hx)
  | succ n ih =>
    intro S hS x hx
    unfold sweepFix at hx
    by_cases h : sweep p fm S = S
    · exact hS x (by simpa [h] using hx)
    · simp only [h, if_false] at hx
      exact ih (sweep p fm S) (sweep_pred p Q hQ fm S hS) x hx

/-! ## Lookup lemmas for the function map -/

theorem fmLookup_mem (fm : FuncMap) (k : String) (v : Span)
    (h : fmLookup fm k = some v) : (k, v) ∈ fm := by
  induction fm with
  | nil => simp [fmLookup] at h
  | cons e fm ih =>
    unfold fmLookup at h
    by_cases hk : e.1 = k
    · rw [List.find?_cons_of_pos _ (by simp [hk])] at h
      simp only [Option.map_some', Option.some_inj] at h
      obtain ⟨a, b⟩ := e
      simp only at hk h
      rw [hk, h]
      exact List.mem_cons_self _ _
    · rw [List.find?_cons_of_neg _ (by simp [hk])] at h
      exact List.mem_cons_of_mem _ (ih h)

theorem mem_fmLookup (fm : FuncMap) (hnd : (fm.map Prod.fst).Nodup)
    (k : String) (v : Span) (h : (k, v) ∈ fm) : fmLookup fm k = some v := by
  induction fm with
  | nil => simp at h
  | cons e fm ih =>
    simp only [List.map_cons, List.nodup_cons] at hnd
    rcases List.mem_cons.mp h with rfl | htail
    · unfold fmLookup
      rw [List.find?_cons_of_pos _ (by simp)]
      rfl
    · have hk : e.1 ≠ k := by
        intro hke
        exact hnd.1 (hke ▸ (List.mem_map_of_mem Prod.fst htail : (k, v).1 ∈ fm.map Prod.fst))
      unfold fmLookup
      rw [List.find?_cons_of_neg _ (by simp [hk])]
      exact ih hnd.2 htail

theorem fmLookup_none (fm : FuncMap) (k : String) :
    fmLookup fm k = none ↔ k ∉ fm.map Prod.fst := by
  unfold fmLookup
  rw [Option.map_eq_none', List.find?_eq_none]
  constructor
  · intro h hk
    rcases List.mem_map.mp hk with ⟨e, he, hke⟩
    have h2 := h e he
    simp only [decide_eq_true_eq] at h2
    exact h2 hke
  · intro h e he hpe
    simp only [decide_eq_true_eq] at hpe
    exact h (List.mem_map.mpr ⟨e, he, hpe⟩)

theorem fmLookup_perm (fm₁ fm₂ : FuncMap) (hperm : fm₁.Perm fm₂)
    (hnd : (fm₁.map Prod.fst).Nodup) (k : String) :
    fmLookup fm₁ k = fmLookup fm₂ k := by
  have hnd₂ : (fm₂.map Prod.fst).Nodup := ((hperm.map Prod.fst).nodup_iff).mp hnd
  cases h : fmLookup fm₁ k with
  | some v =>
    have := fmLookup_mem fm₁ k v h
    exact (mem_fmLookup fm₂ hnd₂ k v (hperm.mem_iff.mp this)).symm
  | none =>
    have hk := (fmLookup_none fm₁ k).mp h
    symm
    rw [fmLookup_none]
    intro hk2
    exact hk (((hperm.map Prod.fst).mem_iff).mpr hk2)

/-! ## Monotonicity and congruence of `has_external_ref` -/

theorem inSkipSpan_mono (fm : FuncMap) (skip skip' : Finset String) (j : Nat)
    (hsub : skip ⊆ skip') (h : inSkipSpan fm skip j = true) :
    inSkipSpan fm skip' j = true := by
  unfold inSkipSpan at h ⊢
  simp only [decide_eq_true_eq] at h ⊢
  rcases h with ⟨sn, hsn, sp, hsp⟩
  exact ⟨sn, hsub hsn, sp, hsp⟩

theorem has_external_ref_antitone (nm : String) (lines : List String) (fm : FuncMap)
    (skip skip' : Finset String) (hsub : skip ⊆ skip')
    (h : has_external_ref nm lines fm skip' = true) :
    has_external_ref nm lines fm skip = true := by
  unfold has_external_ref at h ⊢
  cases hl : fmLookup fm nm with
  | none => rfl
  | some sp =>
    rw [hl] at h
    obtain ⟨s, e, st⟩ := sp
    rcases List.any_eq_true.mp h with ⟨j, hj, href⟩
    apply List.any_eq_true.mpr
    refine ⟨j, hj, ?_⟩
    unfold refLine at href ⊢
    by_cases h1 : s ≤ j && j ≤ e
    · rw [h1] at href; simp at href
    · rw [Bool.not_eq_true] at h1
      rw [h1] at href ⊢
      simp only [if_false, Bool.false_eq_true] at href ⊢
      by_cases h2 : inSkipSpan fm skip j = true
      · have := inSkipSpan_mono fm skip skip' j hsub h2
        rw [this] at href; simp at href
      · rw [Bool.not_eq_true] at h2
        rw [h2]
        by_cases h3 : inSkipSpan fm skip' j = true
        · rw [h3] at href; simp at href
        · rw [Bool.not_eq_true] at h3
          rw [h3] at href
          exact href

theorem inSkipSpan_congr (fm₁ fm₂ : FuncMap)
    (hl : ∀ k, fmLookup fm₁ k = fmLookup fm₂ k) (skip : Finset String) (j : Nat) :
    inSkipSpan fm₁ skip j = inSkipSpan fm₂ skip j := by
  unfold inSkipSpan
  simp only [decide_eq_decide]
  constructor
  · rintro ⟨sn, hsn, sp, hsp, hj⟩; exact ⟨sn, hsn, sp, by rw [← hl sn]; exact hsp, hj⟩
  · rintro ⟨sn, hsn, sp, hsp, hj⟩; exact ⟨sn, hsn, sp, by rw [hl sn]; exact hsp, hj⟩

theorem refLine_congr (nm : String) (lines : List String) (fm₁ fm₂ : FuncMap)
    (hl : ∀ k, fmLookup fm₁ k = fmLookup fm₂ k) (skip : Finset String)
    (s e j : Nat) : refLine nm lines fm₁ skip s e j = refLine nm lines fm₂ skip s e j := by
  unfold refLine
  rw [inSkipSpan_congr fm₁ fm₂ hl skip j]

theorem has_external_ref_congr (nm : String) (lines : List String) (fm₁ fm₂ : FuncMap)
    (hl : ∀ k, fmLookup fm₁ k = fmLookup fm₂ k) (skip : Finset String) :
    has_external_ref nm lines fm₁ skip = has_external_ref nm lines fm₂ skip := by
  unfold has_external_ref
  rw [hl nm]
  cases fmLookup fm₂ nm with
  | none => rfl
  | some sp =>
    obtain ⟨s, e, st⟩ := sp
    have hfun : refLine nm lines fm₁ skip s e = refLine nm lines fm₂ skip s e := by
      funext j
      exact refLine_congr nm lines fm₁ fm₂ hl skip s e j
    change (List.range lines.length).any (refLine nm lines fm₁ skip s e) =
      (List.range lines.length).any (refLine nm lines fm₂ skip s e)
    rw [hfun]

theorem ext_antitone_conj (nm : String) (lines : List String) (fm : FuncMap)
    (S S' : Finset String) (hsub : S ⊆ S')
    (h : (!has_external_ref nm lines fm S) = true) :
    (!has_external_ref nm lines fm S') = true := by
  simp only [Bool.not_eq_true'] at h ⊢
  cases hx : has_external_ref nm lines fm S' with
  | false => rfl
  | true =>
    rw [has_external_ref_antitone nm lines fm S S' hsub hx] at h
    exact h

theorem phase2p_mono (lines : List String) (fm : FuncMap) :
    MonoPred (phase2p lines fm) := by
  intro S S' nm sp hsub h
  unfold phase2p at h ⊢
  simp only [Bool.and_eq_true] at h ⊢
  exact ⟨h.1, ext_antitone_conj nm lines fm S S' hsub h.2⟩

theorem phase4p_mono (lines : List String) (fm : FuncMap) :
    MonoPred (phase4p lines fm) := by
  intro S S' nm sp hsub h
  unfold phase4p at h ⊢
  simp only [Bool.and_eq_true] at h ⊢
  exact ⟨h.1, ext_antitone_conj nm lines fm S S' hsub h.2⟩

theorem phase5p_mono (out : List String) (pm : FuncMap) :
    MonoPred (phase5p out pm) := by
  intro S S' nm sp hsub h
  unfold phase5p at h ⊢
  simp only [Bool.and_eq_true] at h ⊢
  exact ⟨h.1, ext_antitone_conj nm out pm S S' hsub h.2⟩

/-! ## Membership characterizations for the guarded folds -/

theorem foldl_guard_mem (P Q : String × Span → Bool) (fm : FuncMap) :
    ∀ (S : Finset String) (x : String),
      (x ∈ fm.foldl (fun acc e => if P e then acc else if Q e then insert e.1 acc else acc) S
       ↔ x ∈ S ∨ ∃ e ∈ fm, e.1 = x ∧ P e = false ∧ Q e = true) := by
  induction fm with
  | nil => intro S x; simp
  | cons e fm ih =>
    intro S x
    simp only [List.foldl_cons]
    by_cases h1 : P e = true
    · simp only [h1, if_true]
      rw [ih]
      constructor
      · rintro (hx | ⟨e', he', hx, hP, hQ⟩)
        · exact Or.inl hx
        · exact Or.inr ⟨e', List.mem_cons_of_mem _ he', hx, hP, hQ⟩
      · rintro (hx | ⟨e', he', hx, hP, hQ⟩)
        · exact Or.inl hx
        · rcases List.mem_cons.mp he' with rfl | htail
          · rw [h1] at hP; cases hP
          · exact Or.inr ⟨e', htail, hx, hP, hQ⟩
    · rw [Bool.not_eq_true] at h1
      by_cases h2 : Q e = true
      · simp only [h1, Bool.false_eq_true, if_false, h2, if_true]
        rw [ih]
        constructor
        · rintro (hx | ⟨e', he', hx, hP, hQ⟩)
          · rcases Finset.mem_insert.mp hx with rfl | hx
            · exact Or.inr ⟨e, List.mem_cons_self _ _, rfl, h1, h2⟩
            · exact Or.inl hx
          · exact Or.inr ⟨e', List.mem_cons_of_mem _ he', hx, hP, hQ⟩
        · rintro (hx | ⟨e', he', hx, hP, hQ⟩)
          · exact Or.inl (Finset.mem_insert_of_mem hx)
          · rcases List.mem_cons.mp he' with rfl | htail
            · exact Or.inl (hx ▸ Finset.mem_insert_self _ _)
            · exact Or.inr ⟨e', htail, hx, hP, hQ⟩
      · rw [Bool.not_eq_true] at h2
        simp only [h1, Bool.false_eq_true, if_false, h2]
        rw [ih]
        constructor
        · rintro (hx | ⟨e', he', hx, hP, hQ⟩)
          · exact Or.inl hx
          · exact Or.inr ⟨e', List.mem_cons_of_mem _ he', hx, hP, hQ⟩
        · rintro (hx | ⟨e', he', hx, hP, hQ⟩)
          · exact Or.inl hx
          · rcases List.mem_cons.mp he' with rfl | htail
            · rw [h2] at hQ; cases hQ
            · exact Or.inr ⟨e', htail, hx, hP, hQ⟩

theorem phase1_mem (fm : FuncMap) (x : String) :
    x ∈ phase1 fm ↔
      ∃ e ∈ fm, e.1 = x ∧ x ∉ KEEP_FUNCTIONS ∧ is_explicitly_gui_function x = true := by
  unfold phase1
  rw [List.foldl_ext _
    (fun acc (e : String × Span) =>
      if decide (e.1 ∈ KEEP_FUNCTIONS) then acc
      else if is_explicitly_gui_function e.1 then insert e.1 acc else acc)
    ∅ (by
      intro acc e _
      by_cases h : e.1 ∈ KEEP_FUNCTIONS
      · simp [h]
      · simp [h])]
  rw [foldl_guard_mem]
  simp only [Finset.not_mem_empty, false_or]
  constructor
  · rintro ⟨e, he, rfl, hP, hQ⟩
    simp only [decide_eq_false_iff_not] at hP
    exact ⟨e, he, rfl, hP, hQ⟩
  · rintro ⟨e, he, rfl, hP, hQ⟩
    exact ⟨e, he, rfl, by simpa using hP, hQ⟩

theorem rgFold_mem (lines : List String) (fm : FuncMap) (S : Finset String) (x : String) :
    x ∈ rgFold lines fm S ↔
      ∃ e ∈ fm, e.1 = x ∧ x ∉ S ∧ x ∉ KEEP_FUNCTIONS ∧ e.2.2.2 = true ∧
        function_body_has_gui_tokens (bodyOf lines e.2) = true := by
  unfold rgFold
  rw [List.foldl_ext _
    (fun acc (e : String × Span) =>
      if decide (e.1 ∈ S ∨ e.1 ∈ KEEP_FUNCTIONS ∨ e.2.2.2 = false) then acc
      else if function_body_has_gui_tokens (bodyOf lines e.2) then insert e.1 acc else acc)
    ∅ (by
      intro acc e _
      by_cases h : e.1 ∈ S ∨ e.1 ∈ KEEP_FUNCTIONS ∨ e.2.2.2 = false
      · simp [h]
      · simp [h])]
  rw [foldl_guard_mem]
  simp only [Finset.not_mem_empty, false_or]
  constructor
  · rintro ⟨e, he, rfl, hP, hQ⟩
    simp only [decide_eq_false_iff_not, not_or, Bool.not_eq_false] at hP
    exact ⟨e, he, rfl, hP.1, hP.2.1, hP.2.2, hQ⟩
  · rintro ⟨e, he, rfl, hS, hK, hst, hQ⟩
    refine ⟨e, he, rfl, ?_, hQ⟩
    simp only [decide_eq_false_iff_not, not_or, Bool.not_eq_false]
    exact ⟨hS, hK, hst⟩

/-! ## Order independence of the classifier phases -/

theorem phase1_perm (fm₁ fm₂ : FuncMap) (hperm : fm₁.Perm fm₂) :
    phase1 fm₁ = phase1 fm₂ := by
  apply Finset.ext
  intro x
  rw [phase1_mem, phase1_mem]
  constructor
  · rintro ⟨e, he, hx, hk, hg⟩; exact ⟨e, hperm.mem_iff.mp he, hx, hk, hg⟩
  · rintro ⟨e, he, hx, hk, hg⟩; exact ⟨e, hperm.mem_iff.mpr he, hx, hk, hg⟩

theorem phase2_perm (lines : List String) (fm₁ fm₂ : FuncMap) (hperm : fm₁.Perm fm₂)
    (hnd : (fm₁.map Prod.fst).Nodup) (S : Finset String) :
    phase2 lines fm₁ S = phase2 lines fm₂ S := by
  have hl : ∀ k, fmLookup fm₁ k = fmLookup fm₂ k := fmLookup_perm fm₁ fm₂ hperm hnd
  have hpeq : phase2p lines fm₁ = phase2p lines fm₂ := by
    funext T nm sp
    unfold phase2p
    rw [has_external_ref_congr nm lines fm₁ fm₂ hl T]
  unfold phase2
  rw [hpeq]
  exact sweepFix_perm _ (phase2p_mono lines fm₂) fm₁ fm₂ hperm S

theorem phase3_perm (lines : List String) (fm₁ fm₂ : FuncMap) (hperm : fm₁.Perm fm₂)
    (hnd : (fm₁.map Prod.fst).Nodup) (S : Finset String) :
    phase3 lines fm₁ S = phase3 lines fm₂ S := by
  have hl : ∀ k, fmLookup fm₁ k = fmLookup fm₂ k := fmLookup_perm fm₁ fm₂ hperm hnd
  have hrg : rgFold lines fm₁ S = rgFold lines fm₂ S := by
    apply Finset.ext
    intro x
    rw [rgFold_mem, rgFold_mem]
    constructor
    · rintro ⟨e, he, hx, h⟩; exact ⟨e, hperm.mem_iff.mp he, hx, h⟩
    · rintro ⟨e, he, hx, h⟩; exact ⟨e, hperm.mem_iff.mpr he, hx, h⟩
  unfold phase3
  rw [hrg]
  by_cases h : rgFold lines fm₂ S = ∅
  · simp only [h, if_true]
  · simp only [h, if_false]
    have hfil : (rgFold lines fm₂ S).filter
        (fun nm => has_external_ref nm lines fm₁ (S ∪ rgFold lines fm₂ S) = false) =
        (rgFold lines fm₂ S).filter
        (fun nm => has_external_ref nm lines fm₂ (S ∪ rgFold lines fm₂ S) = false) := by
      apply Finset.filter_congr
      intro x _
      rw [has_external_ref_congr x lines fm₁ fm₂ hl]
    rw [hfil]

theorem phase4_perm (lines : List String) (fm₁ fm₂ : FuncMap) (hperm : fm₁.Perm fm₂)
    (hnd : (fm₁.map Prod.fst).Nodup) (S : Finset String) :
    phase4 lines fm₁ S = phase4 lines fm₂ S := by
  have hl : ∀ k, fmLookup fm₁ k = fmLookup fm₂ k := fmLookup_perm fm₁ fm₂ hperm hnd
  have hpeq : phase4p lines fm₁ = phase4p lines fm₂ := by
    funext T nm sp
    unfold phase4p
    rw [has_external_ref_congr nm lines fm₁ fm₂ hl T]
  unfold phase4
  rw [hpeq]
  exact sweepFix_perm _ (phase4p_mono lines fm₂) fm₁ fm₂ hperm S

/-! ## Claim C2 -/

/-- C2: for every input FunctionMap (with its names unique, as a Python
dict guarantees) and the fixed policy tables, the RemovalSet produced by
`find_all_functions_to_remove` is a function of the FunctionMap contents
alone: examining the functions in any other order (any permutation of the
map) within each phase yields the same final RemovalSet. -/
theorem C2_removal_set_order_independent (lines : List String) (fm₁ fm₂ : FuncMap)
    (hperm : fm₁.Perm fm₂) (hnd : (fm₁.map Prod.fst).Nodup) :
    find_all_functions_to_remove lines fm₁ = find_all_functions_to_remove lines fm₂ := by
  unfold find_all_functions_to_remove
  rw [phase1_perm fm₁ fm₂ hperm,
      phase2_perm lines fm₁ fm₂ hperm hnd,
      phase3_perm lines fm₁ fm₂ hperm hnd,
      phase4_perm lines fm₁ fm₂ hperm hnd]

/-- Witness for C2: the two-function example examined in both map orders. -/
theorem C2_removal_set_order_independent_witness :
    (build_function_map exW2).Perm (build_function_map exW2).reverse ∧
      ((build_function_map exW2).map Prod.fst).Nodup ∧
      find_all_functions_to_remove exW2 (build_function_map exW2) =
        find_all_functions_to_remove exW2 (build_function_map exW2).reverse :=
  ⟨by decide, by decide,
    C2_removal_set_order_independent exW2 _ _ (by decide) (by decide)⟩

/-! ## Claim C3 -/

theorem phase3_subset (lines : List String) (fm : FuncMap) (S : Finset String) :
    S ⊆ phase3 lines fm S := by
  unfold phase3
  by_cases h : rgFold lines fm S = ∅
  · simp [h]
  · simp only [h, if_false, ite_self]
    exact Finset.subset_union_left

/-- C3: within one run the RemovalSet only grows: each classifier phase's
output contains the previous phase's output, and the final reported set
(after the post-assembly orphan sweep of Pass 5) contains the classifier's
set; no name, once added, is ever removed. -/
theorem C3_removal_set_monotone (lines : List String) (fm : FuncMap) :
    phase1 fm ⊆ phase2 lines fm (phase1 fm) ∧
      phase2 lines fm (phase1 fm) ⊆ phase3 lines fm (phase2 lines fm (phase1 fm)) ∧
      phase3 lines fm (phase2 lines fm (phase1 fm)) ⊆ find_all_functions_to_remove lines fm ∧
      classifierSet lines ⊆ removedNames lines := by
  refine ⟨?_, ?_, ?_, ?_⟩
  · exact sweepFix_subset _ fm _ _
  · exact phase3_subset lines fm _
  · exact sweepFix_subset _ fm _ _
  · exact Finset.subset_union_left

/-! ## Claim C7 -/

/-- C7: for every name absent from the FunctionMap, and for every line
sequence and every skip set, `has_external_ref` returns true (unknown
names are conservatively treated as externally referenced). -/
theorem C7_unknown_name_is_referenced (nm : String) (lines : List String)
    (fm : FuncMap) (skip : Finset String) (h : fmLookup fm nm = none) :
    has_external_ref nm lines fm skip = true := by
  unfold has_external_ref
  rw [h]

/-- Witness for C7: a name with no definition in the map. -/
theorem C7_unknown_name_is_referenced_witness :
    fmLookup [] "absent_fn" = none ∧
      has_external_ref "absent_fn" ["int x;\n"] [] {"process"} = true :=
  ⟨by decide,
    C7_unknown_name_is_referenced "absent_fn" ["int x;\n"] [] {"process"} (by decide)⟩

/-! ## Claim C8 -/

/-- C8: the program exits with code 1 (after a usage message) when invoked
with other than exactly two positional arguments, exits with code 1 (after
an error message) when the input path is not an existing file, and exits
with code 0 on success. -/
theorem C8_cli_exit_codes (argv : List String) (isFile : String → Bool) :
    (argv.length ≠ 3 → mainResult argv isFile = (CliOutcome.usage, 1)) ∧
      (argv.length = 3 → isFile (argv.getD 1 "") = false →
        mainResult argv isFile = (CliOutcome.missingInput, 1)) ∧
      (argv.length = 3 → isFile (argv.getD 1 "") = true →
        mainResult argv isFile = (CliOutcome.success, 0)) := by
  refine ⟨?_, ?_, ?_⟩
  · intro h; unfold mainResult; simp [h]
  · intro h hf
    unfold mainResult
    rw [if_neg (by simp [h]), if_pos hf]
  · intro h hf
    unfold mainResult
    have hcond : ¬(isFile (argv.getD 1 "") = false) := by rw [hf]; simp
    rw [if_neg (by simp [h]), if_neg hcond]

/-- Witness for C8: all three invocation shapes. -/
theorem C8_cli_exit_codes_witness :
    mainResult ["strip_iop.py"] (fun _ => true) = (CliOutcome.usage, 1) ∧
      mainResult ["strip_iop.py", "in.c", "out.c"] (fun _ => false) =
        (CliOutcome.missingInput, 1) ∧
      mainResult ["strip_iop.py", "in.c", "out.c"] (fun _ => true) =
        (CliOutcome.success, 0) :=
  ⟨(C8_cli_exit_codes ["strip_iop.py"] (fun _ => true)).1 (by decide),
   (C8_cli_exit_codes ["strip_iop.py", "in.c", "out.c"] (fun _ => false)).2.1 (by decide) rfl,
   (C8_cli_exit_codes ["strip_iop.py", "in.c", "out.c"] (fun _ => true)).2.2 (by decide) rfl⟩

/-! ## Claim C1 -/

theorem phase2p_not_keep (lines : List String) (fm : FuncMap) :
    ∀ (S : Finset String) (nm : String) (sp : Span),
      phase2p lines fm S nm sp = true → nm ∉ KEEP_FUNCTIONS := by
  intro S nm sp h
  unfold phase2p at h
  simp only [Bool.and_eq_true] at h
  simpa using h.1.1.1

theorem phase4p_not_keep (lines : List String) (fm : FuncMap) :
    ∀ (S : Finset String) (nm : String) (sp : Span),
      phase4p lines fm S nm sp = true → nm ∉ KEEP_FUNCTIONS := by
  intro S nm sp h
  unfold phase4p at h
  simp only [Bool.and_eq_true] at h
  simpa using h.1.1

theorem phase5p_not_keep (out : List String) (pm : FuncMap) :
    ∀ (S : Finset String) (nm : String) (sp : Span),
      phase5p out pm S nm sp = true → nm ∉ KEEP_FUNCTIONS := by
  intro S nm sp h
  unfold phase5p at h
  simp only [Bool.and_eq_true] at h
  simpa using h.1.1

theorem phase3_not_keep (lines : List String) (fm : FuncMap) (S : Finset String)
    (hS : ∀ x ∈ S, x ∉ KEEP_FUNCTIONS) :
    ∀ x ∈ phase3 lines fm S, x ∉ KEEP_FUNCTIONS := by
  intro x hx
  unfold phase3 at hx
  by_cases h : rgFold lines fm S = ∅
  · simp only [h, if_true] at hx
    exact hS x hx
  · simp only [h, if_false, ite_self] at hx
    rcases Finset.mem_union.mp hx with hx | hx
    · exact hS x hx
    · have hrg := (Finset.mem_filter.mp hx).1
      rcases (rgFold_mem lines fm S x).mp hrg with ⟨e, _, _, _, hK, _⟩
      exact hK

theorem classifier_not_keep (lines : List String) (fm : FuncMap) :
    ∀ x ∈ find_all_functions_to_remove lines fm, x ∉ KEEP_FUNCTIONS := by
  unfold find_all_functions_to_remove phase4 phase2
  intro x hx
  refine sweepFix_pred _ (fun nm => nm ∉ KEEP_FUNCTIONS)
    (phase4p_not_keep lines fm) fm _ _ ?_ x hx
  apply phase3_not_keep
  refine sweepFix_pred _ (fun nm => nm ∉ KEEP_FUNCTIONS)
    (phase2p_not_keep lines fm) fm _ _ ?_
  intro y hy
  rcases (phase1_mem fm y).mp hy with ⟨e, _, _, hk, _⟩
  exact hk

/-- C1 (amended): a protected name never enters the removal set — neither
through the classifier's four phases nor through the post-assembly orphan
sweep — so a protected function's definition is never removed as a span.
(The original claim, that no pass alters any line of a protected function,
is refuted by `C1_counterexample`: the resource rewriter, the widget
cleanup of Pass 4b, the gui_data cleanup of Pass 6 and the blank-line
collapsing of Pass 7 apply to protected function bodies as well.) -/
theorem C1_protected_never_removed (lines : List String) (nm : String)
    (h : nm ∈ removedNames lines) : nm ∉ KEEP_FUNCTIONS := by
  unfold removedNames at h
  rcases Finset.mem_union.mp h with h | h
  · exact classifier_not_keep lines _ nm h
  · unfold post_orphans at h
    refine sweepFix_pred _ (fun x => x ∉ KEEP_FUNCTIONS)
      (phase5p_not_keep _ _) _ _ _ ?_ nm h
    intro y hy
    simp at hy

/-- Witness for C1: a removed name, shown not protected. -/
theorem C1_protected_never_removed_witness :
    "gui_aux" ∈ removedNames exW2 ∧ "gui_aux" ∉ KEEP_FUNCTIONS :=
  ⟨by decide, C1_protected_never_removed exW2 "gui_aux" (by decide)⟩

/-- Counterexample to C1 as stated: in `exC1` the protected `process` is
defined at lines 0–3 (a 4-line span) and contains the widget line
`gtk_widget_show(self->widget);`; the pipeline's output keeps the
signature but deletes that body line, so the output does not contain the
function with the same body line count, structurally unmodified. -/
theorem C1_counterexample :
    "process" ∈ KEEP_FUNCTIONS ∧
      fmLookup (build_function_map exC1) "process" = some (0, 3, true) ∧
      exC1.getD 2 "" = "  gtk_widget_show(self->widget);\n" ∧
      strip_iop_lines exC1 =
        ["static void process(dt_iop_module_t *self)\n", "\x7b\n", "\x7d\n"] := by
  refine ⟨by decide, by decide, by decide, by decide⟩

/-! ## Claim C4 -/

theorem mem_fmInsert (m : FuncMap) (k : String) (v : Span) (e : String × Span)
    (he : e ∈ fmInsert m k v) : e ∈ m ∨ e = (k, v) := by
  unfold fmInsert at he
  by_cases h : m.any (fun e => e.1 = k) = true
  · simp only [h, if_true] at he
    rcases List.mem_map.mp he with ⟨e', he', heq⟩
    by_cases hk : e'.1 = k
    · right; rw [← heq]; simp [hk]
    · left; rw [← heq]; simp only [hk, if_false]; exact he'
  · rw [Bool.not_eq_true] at h
    simp only [h, Bool.false_eq_true, if_false] at he
    rcases List.mem_append.mp he with h' | h'
    · exact Or.inl h'
    · right; simpa using h'

theorem bfmGo_closed (lines : List String) :
    ∀ (fuel i : Nat) (m : FuncMap),
      (∀ e ∈ m, find_brace_block_end lines e.2.1 = some e.2.2.1 ∧
        get_function_name (lines.getD e.2.1 "") = some (e.1, e.2.2.2)) →
      ∀ e ∈ bfmGo lines fuel i m,
        find_brace_block_end lines e.2.1 = some e.2.2.1 ∧
          get_function_name (lines.getD e.2.1 "") = some (e.1, e.2.2.2) := by
  intro fuel
  induction fuel with
  | zero =>
    intro i m hm e he
    exact hm e (by simpa [bfmGo] using he)
  | succ n ih =>
    intro i m hm e he
    unfold bfmGo at he
    by_cases hi : i < lines.length
    · simp only [hi, if_true] at he
      cases hgf : get_function_name (lines.getD i "") with
      | none =>
        rw [hgf] at he
        exact ih _ _ hm e he
      | some nmst =>
        rw [hgf] at he
        by_cases hf1 : is_forward_declaration (lines.getD i "") = true
        · simp only [hf1, if_true] at he
          exact ih _ _ hm e he
        · rw [Bool.not_eq_true] at hf1
          simp only [hf1, Bool.false_eq_true, if_false] at he
          by_cases hf2 : (decide (i + 1 < lines.length) &&
              is_forward_declaration (lines.getD i "" ++ lines.getD (i + 1) "")) = true
          · simp only [hf2, if_true] at he
            exact ih _ _ hm e he
          · rw [Bool.not_eq_true] at hf2
            simp only [hf2, Bool.false_eq_true, if_false] at he
            cases hbe : find_brace_block_end lines i with
            | none =>
              rw [hbe] at he
              exact ih _ _ hm e he
            | some be =>
              rw [hbe] at he
              refine ih _ _ ?_ e he
              intro e' he'
              rcases mem_fmInsert m nmst.1 (i, be, nmst.2) e' he' with h' | rfl
              · exact hm e' h'
              · exact ⟨hbe, by simpa using hgf⟩
    · simp only [hi, if_false] at he
      exact hm e he

theorem phase3_mem_keys (lines : List String) (fm : FuncMap) (S : Finset String) :
    ∀ x ∈ phase3 lines fm S, x ∈ S ∨ x ∈ fmKeys fm := by
  intro x hx
  unfold phase3 at hx
  by_cases h : rgFold lines fm S = ∅
  · simp only [h, if_true] at hx
    exact Or.inl hx
  · simp only [h, if_false, ite_self] at hx
    rcases Finset.mem_union.mp hx with hx | hx
    · exact Or.inl hx
    · have hrg := (Finset.mem_filter.mp hx).1
      rcases (rgFold_mem lines fm S x).mp hrg with ⟨e, he, hex, _⟩
      exact Or.inr (hex ▸ fst_mem_fmKeys fm e he)

theorem classifier_subset_keys (lines : List String) (fm : FuncMap) :
    ∀ x ∈ find_all_functions_to_remove lines fm, x ∈ fmKeys fm := by
  unfold find_all_functions_to_remove phase4 phase2
  intro x hx
  rcases mem_sweepFix _ fm _ _ x hx with hx | hk
  · rcases phase3_mem_keys lines fm _ x hx with hx | hk
    · rcases mem_sweepFix _ fm _ _ x hx with hx | hk
      · rcases (phase1_mem fm x).mp hx with ⟨e, he, hex, _⟩
        exact hex ▸ fst_mem_fmKeys fm e he
      · exact hk
    · exact hk
  · exact hk

/-- C4 (amended): a function definition whose brace block never closes is
invisible to the analysis: every span recorded in the FunctionMap has a
found block end (and a recognized definition line), and every name in the
classifier's RemovalSet is a FunctionMap key — so an unclosed definition
yields no map entry and cannot be removed (in particular its block is never
partially removed as a span).  (The original claim's "all of its lines
appear unchanged in the output" is refuted by `C4_counterexample`: the
global line-cleanup passes still apply inside the unclosed block.) -/
theorem C4_unclosed_block_invisible :
    (∀ (lines : List String) (nm : String) (sp : Span),
        fmLookup (build_function_map lines) nm = some sp →
        find_brace_block_end lines sp.1 = some sp.2.1 ∧
          get_function_name (lines.getD sp.1 "") = some (nm, sp.2.2)) ∧
      (∀ (lines : List String) (fm : FuncMap) (nm : String),
        nm ∈ find_all_functions_to_remove lines fm → nm ∈ fmKeys fm) := by
  constructor
  · intro lines nm sp h
    have hmem := fmLookup_mem _ _ _ h
    exact bfmGo_closed lines _ _ _ (by intro e he; simp at he) (nm, sp) hmem
  · intro lines fm nm h
    exact classifier_subset_keys lines fm nm h

/-- Witness for C4's amended statement, at a recorded function. -/
theorem C4_unclosed_block_invisible_witness :
    fmLookup (build_function_map exW2) "gui_aux" = some (0, 3, true) ∧
      find_brace_block_end exW2 0 = some 3 ∧
      "gui_aux" ∈ find_all_functions_to_remove exW2 (build_function_map exW2) ∧
      "gui_aux" ∈ fmKeys (build_function_map exW2) :=
  ⟨by decide,
   (C4_unclosed_block_invisible.1 exW2 "gui_aux" (0, 3, true) (by decide)).1,
   by decide,
   C4_unclosed_block_invisible.2 exW2 (build_function_map exW2) "gui_aux" (by decide)⟩

/-- Counterexample to C4 as stated: `broken` in `exC4` opens a block that
never closes; it is in neither the FunctionMap nor the RemovalSet and its
block is not removed — but its interior widget line is still deleted by
Pass 4b, so not all of its lines appear unchanged in the output. -/
theorem C4_counterexample :
    get_function_name (exC4.getD 0 "") = some ("broken", true) ∧
      find_brace_block_end exC4 0 = none ∧
      build_function_map exC4 = [] ∧
      removedNames exC4 = ∅ ∧
      exC4.getD 2 "" = "  gtk_widget_show(self->widget);\n" ∧
      strip_iop_lines exC4 = ["static void broken(void)\n", "\x7b\n"] := by
  refine ⟨by decide, by decide, by decide, by decide, by decide, by decide⟩

/-! ## Claim C6 -/

theorem getD_mem_of_lt (l : List String) (i : Nat) (h : i < l.length) :
    l.getD i "" ∈ l := by
  rw [List.getD_eq_getElem l "" h]
  exact List.getElem_mem h

theorem mem_rfd (lines : List String) (S : Finset String) (l : String)
    (hl : l ∈ remove_forward_declarations lines S) : l ∈ lines := by
  induction lines with
  | nil => simp [remove_forward_declarations] at hl
  | cons a lines ih =>
    unfold remove_forward_declarations at hl
    simp only [List.foldr_cons] at hl
    cases hfa : fwdDeclName (pstrip a) with
    | some n =>
      rw [hfa] at hl
      by_cases hn : n ∈ S
      · simp only [hn, if_true] at hl
        exact List.mem_cons_of_mem _ (ih hl)
      · simp only [hn, if_false] at hl
        rcases List.mem_cons.mp hl with rfl | hl
        · exact List.mem_cons_self _ _
        · exact List.mem_cons_of_mem _ (ih hl)
    | none =>
      rw [hfa] at hl
      rcases List.mem_cons.mp hl with rfl | hl
      · exact List.mem_cons_self _ _
      · exact List.mem_cons_of_mem _ (ih hl)

/-- C6 (amended): the forward-declaration cleanup is complete for the
declarations the program can recognize: no line surviving
`remove_forward_declarations` is a single-line forward declaration (in the
sense of `FORWARD_DECL_RE`) of a removed name.  (A forward declaration
whose parameter list spans two lines is not recognized — neither here nor
by the two-line join of `build_function_map`, whose regex cannot cross the
embedded newline — and can survive in the output: `C6_counterexample`.) -/
theorem C6_single_line_fwd_decls_removed (lines : List String) (S : Finset String)
    (l : String) (nm : String) (hl : l ∈ remove_forward_declarations lines S)
    (hf : fwdDeclName (pstrip l) = some nm) : nm ∉ S := by
  induction lines with
  | nil => simp [remove_forward_declarations] at hl
  | cons a lines ih =>
    unfold remove_forward_declarations at hl
    simp only [List.foldr_cons] at hl
    cases hfa : fwdDeclName (pstrip a) with
    | some n =>
      rw [hfa] at hl
      by_cases hn : n ∈ S
      · simp only [hn, if_true] at hl
        exact ih hl
      · simp only [hn, if_false] at hl
        rcases List.mem_cons.mp hl with rfl | hl
        · rw [hfa] at hf
          injection hf with h'
          rw [← h']
          exact hn
        · exact ih hl
    | none =>
      rw [hfa] at hl
      rcases List.mem_cons.mp hl with rfl | hl
      · rw [hfa] at hf; cases hf
      · exact ih hl

/-- Witness for C6's amended statement. -/
theorem C6_single_line_fwd_decls_removed_witness :
    "static void fwd1(int a);\n" ∈
        remove_forward_declarations ["static void fwd1(int a);\n"] {"other"} ∧
      fwdDeclName (pstrip "static void fwd1(int a);\n") = some "fwd1" ∧
      "fwd1" ∉ ({"other"} : Finset String) :=
  ⟨by decide, by decide,
    C6_single_line_fwd_decls_removed ["static void fwd1(int a);\n"] {"other"}
      "static void fwd1(int a);\n" "fwd1" (by decide) (by decide)⟩

/-- Counterexample to C6 as stated: in `exC6` the name `gui_helper` is in
the RemovalSet and its definition is removed, yet its forward declaration
— whose parameter list spans two lines — survives verbatim as the entire
output; the join of the two surviving stripped lines is exactly a forward
declaration of `gui_helper` by the program's own pattern. -/
theorem C6_counterexample :
    "gui_helper" ∈ removedNames exC6 ∧
      strip_iop_lines exC6 =
        ["static void gui_helper(int a,\n", "                       int b);\n"] ∧
      fwdDeclName (pstrip (exC6.getD 4 "") ++ pstrip (exC6.getD 5 "")) =
        some "gui_helper" := by
  refine ⟨by decide, by decide, by decide⟩

/-! ## Claim C9 -/

theorem mem_pass7Go (lines : List String) :
    ∀ (cnt : Nat) (l : String), l ∈ pass7Go lines cnt → l ∈ lines := by
  induction lines with
  | nil => intro cnt l hl; simp [pass7Go] at hl
  | cons a lines ih =>
    intro cnt l hl
    unfold pass7Go at hl
    by_cases hb : pstrip a = ""
    · simp only [hb, if_true] at hl
      by_cases hc : cnt + 1 ≤ 2
      · simp only [hc, if_true] at hl
        rcases List.mem_cons.mp hl with rfl | hl
        · exact List.mem_cons_self _ _
        · exact List.mem_cons_of_mem _ (ih _ _ hl)
      · simp only [hc, if_false] at hl
        exact List.mem_cons_of_mem _ (ih _ _ hl)
    · simp only [hb, if_false] at hl
      rcases List.mem_cons.mp hl with rfl | hl
      · exact List.mem_cons_self _ _
      · exact List.mem_cons_of_mem _ (ih _ _ hl)

theorem mem_pass6 (lines : List String) (l : String) (hl : l ∈ pass6 lines) :
    l ∈ lines ∧ pass6Drop l = false := by
  induction lines with
  | nil => simp [pass6] at hl
  | cons a lines ih =>
    unfold pass6 at hl
    simp only [List.foldr_cons] at hl
    by_cases hd : pass6Drop a = true
    · rw [hd] at hl
      simp only [if_true] at hl
      have := ih hl
      exact ⟨List.mem_cons_of_mem _ this.1, this.2⟩
    · rw [Bool.not_eq_true] at hd
      rw [hd] at hl
      simp only [Bool.false_eq_true, if_false] at hl
      rcases List.mem_cons.mp hl with rfl | hl
      · exact ⟨List.mem_cons_self _ _, hd⟩
      · have := ih hl
        exact ⟨List.mem_cons_of_mem _ this.1, this.2⟩

theorem mem_pass5Go (out : List String) (orphans : Finset String) :
    ∀ (fuel i : Nat) (l : String), l ∈ pass5Go out orphans fuel i → l ∈ out := by
  intro fuel
  induction fuel with
  | zero => intro i l hl; simp [pass5Go] at hl
  | succ n ih =>
    intro i l hl
    unfold pass5Go at hl
    by_cases hi : i < out.length
    · simp only [hi, if_true] at hl
      cases hj : (match get_function_name (out.getD i "") with
        | some nmst =>
          if nmst.1 ∈ orphans ∧ ¬is_forward_declaration (out.getD i "") = true then
            find_brace_block_end out i
          else none
        | none => none : Option Nat) with
      | some e =>
        rw [hj] at hl
        exact ih _ _ hl
      | none =>
        rw [hj] at hl
        rcases List.mem_cons.mp hl with rfl | hl
        · exact getD_mem_of_lt out i hi
        · exact ih _ _ hl
    · simp only [hi, if_false] at hl
      simp at hl

theorem strContains_trans (s t u : String) (hsub : u.data <:+: t.data)
    (h : strContains s t = true) : strContains s u = true := by
  unfold strContains at h ⊢
  simp only [decide_eq_true_eq] at h ⊢
  exact hsub.trans h

theorem pass4b_no_widget (lines : List String) (l : String) (hl : l ∈ pass4b lines) :
    widgetTokens l = false := by
  unfold pass4b at hl
  rcases List.mem_flatMap.mp hl with ⟨a, _, hla⟩
  unfold pass4bStep at hla
  dsimp only [] at hla
  by_cases h1 : (reMatches IF_WIDGET_RE (pstrip a) &&
      (strContains (pstrip a) "gtk_stack" || strContains (pstrip a) "gtk_widget")) = true
  · rw [h1] at hla
    simp only [if_true, List.mem_singleton] at hla
    rw [hla]
    decide
  · rw [Bool.not_eq_true] at h1
    rw [h1] at hla
    simp only [Bool.false_eq_true, if_false] at hla
    by_cases h2 : (strContains (pstrip a) "self->widget" &&
        (strContains (pstrip a) "gtk_stack_" || strContains (pstrip a) "gtk_widget_")) = true
    · rw [h2] at hla
      simp at hla
    · rw [Bool.not_eq_true] at h2
      rw [h2] at hla
      simp only [Bool.false_eq_true, if_false, List.mem_singleton] at hla
      rw [hla]
      exact h2

/-- C9: (i) the per-line action of Pass 4b on any line whose stripped text
contains `self->widget` together with `gtk_stack_` or `gtk_widget_`:
the one-line `if (self->widget)` form is replaced by an empty line, any
other such line is deleted — with no exemption for lines of protected
functions, since the pass sees only lines; (ii) consequently no line of
the final pipeline output contains those tokens. -/
theorem C9_widget_lines_removed :
    (∀ l : String, widgetTokens l = true →
        pass4bStep l = if reMatches IF_WIDGET_RE (pstrip l) then [""] else []) ∧
      (∀ (input : List String) (l : String), l ∈ strip_iop_lines input →
        widgetTokens l = false) := by
  constructor
  · intro l hw
    unfold widgetTokens at hw
    simp only [Bool.and_eq_true, Bool.or_eq_true] at hw
    have hsw : strContains (pstrip l) "self->widget" = true := hw.1
    have hnarrow : strContains (pstrip l) "gtk_stack" = true ∨
        strContains (pstrip l) "gtk_widget" = true := by
      rcases hw.2 with h | h
      · exact Or.inl (strContains_trans _ _ _ (by decide) h)
      · exact Or.inr (strContains_trans _ _ _ (by decide) h)
    unfold pass4bStep
    dsimp only []
    by_cases hm : reMatches IF_WIDGET_RE (pstrip l) = true
    · have hc1 : (reMatches IF_WIDGET_RE (pstrip l) &&
          (strContains (pstrip l) "gtk_stack" || strContains (pstrip l) "gtk_widget")) = true := by
        rw [hm]
        simp only [Bool.true_and, Bool.or_eq_true]
        exact hnarrow
      rw [hc1, hm]
      simp
    · rw [Bool.not_eq_true] at hm
      have hc1 : (reMatches IF_WIDGET_RE (pstrip l) &&
          (strContains (pstrip l) "gtk_stack" || strContains (pstrip l) "gtk_widget")) = false := by
        rw [hm]; simp
      have hc2 : (strContains (pstrip l) "self->widget" &&
          (strContains (pstrip l) "gtk_stack_" || strContains (pstrip l) "gtk_widget_")) = true := by
        rw [hsw]
        simp only [Bool.true_and, Bool.or_eq_true]
        exact hw.2
      rw [hc1, hc2, hm]
      simp
  · intro input l hl
    unfold strip_iop_lines at hl
    have h6 := mem_pass7Go _ _ _ hl
    have h5 := (mem_pass6 _ _ h6).1
    unfold pass5 at h5
    have h5b := mem_rfd _ _ _ h5
    have h4b := mem_pass5Go _ _ _ _ _ h5b
    exact pass4b_no_widget _ _ h4b

/-- Witness for C9: a widget line that is deleted outright and an if-form
line that becomes blank. -/
theorem C9_widget_lines_removed_witness :
    widgetTokens "  gtk_widget_show(self->widget);\n" = true ∧
      pass4bStep "  gtk_widget_show(self->widget);\n" = [] ∧
      widgetTokens "  if(self->widget) gtk_stack_set_visible_child_name(s, n);\n" = true ∧
      pass4bStep "  if(self->widget) gtk_stack_set_visible_child_name(s, n);\n" = [""] := by
  refine ⟨by decide, ?_, by decide, ?_⟩
  · have h := C9_widget_lines_removed.1 "  gtk_widget_show(self->widget);\n" (by decide)
    rw [h]
    decide
  · have h := C9_widget_lines_removed.1
      "  if(self->widget) gtk_stack_set_visible_child_name(s, n);\n" (by decide)
    rw [h]
    decide

/-! ## Claim C10 -/

theorem sgGo_zero (lines : List String) (fend : Nat) (var : Option String) (i : Nat) :
    sgGo lines fend 0 var i = [] := rfl

theorem sgGo_succ (lines : List String) (fend fuel : Nat) (var : Option String) (i : Nat) :
    sgGo lines fend (fuel + 1) var i =
      (if i > fend then []
      else
        match reGroup GD_ASSIGN_RE (lines.getD i "") 2 with
        | some v => sgGo lines fend fuel (some v) (i + 1)
        | none =>
          if reMatches GD_CAST_SET_RE (lines.getD i "") then sgGo lines fend fuel var (i + 1)
          else if reMatches IF_GD_ONE_RE (lines.getD i "") then sgGo lines fend fuel var (i + 1)
          else
            match blockJump lines fend i (reMatches IF_GD_RE (lines.getD i "")) with
            | some ni => sgGo lines fend fuel var ni
            | none =>
              match var with
              | none => lines.getD i "" :: sgGo lines fend fuel var (i + 1)
              | some g =>
                match elsePlan lines fend i g with
                | some en => en.1 ++ sgGo lines fend fuel var en.2
                | none =>
                  match blockJump lines fend i (reMatches (IF_VAR_AND_RE g) (lines.getD i "")) with
                  | some ni => sgGo lines fend fuel var ni
                  | none =>
                    match blockJump lines fend i (reMatches (IF_AND_VAR_RE g) (lines.getD i "")) with
                    | some ni => sgGo lines fend fuel var ni
                    | none =>
                      if reMatches (VAR_SET_RE g) (lines.getD i "") then
                        sgGo lines fend fuel var (i + 1)
                      else lines.getD i "" :: sgGo lines fend fuel var (i + 1)) := rfl

theorem elsePlan_emits_nothing (lines : List String) (fend i : Nat) (g : String)
    (helse : ∀ j, reMatches ELSE_RE (lines.getD j "") = false)
    (en : List String × Nat) (hep : elsePlan lines fend i g = some en) : en.1 = [] := by
  unfold elsePlan at hep
  cases h1 : reGroup (IF_VAR_RE g) (lines.getD i "") 1 with
  | none => rw [h1] at hep; cases hep
  | some indent =>
    rw [h1] at hep
    cases h2 : find_brace_block_end lines i with
    | none => rw [h2] at hep; cases hep
    | some ibe =>
      rw [h2] at hep
      by_cases h3 : ibe ≤ fend
      · simp only [h3, if_true] at hep
        rw [helse (skipBlankLines lines fend (fend + 2) (ibe + 1))] at hep
        simp only [Bool.and_false, Bool.false_eq_true, if_false] at hep
        injection hep with h
        rw [← h]
      · simp only [h3, if_false] at hep
        cases hep

theorem sgGo_no_assign (lines : List String) (fend : Nat)
    (helse : ∀ j, reMatches ELSE_RE (lines.getD j "") = false) :
    ∀ (fuel : Nat) (var : Option String) (i : Nat) (l : String),
      l ∈ sgGo lines fend fuel var i → reGroup GD_ASSIGN_RE l 2 = none := by
  intro fuel
  induction fuel with
  | zero => intro var i l hl; simp [sgGo] at hl
  | succ n ih =>
    intro var i l hl
    rw [sgGo_succ] at hl
    split at hl
    · simp at hl
    · split at hl
      · exact ih _ _ _ hl
      · rename_i ha
        split at hl
        · exact ih _ _ _ hl
        · split at hl
          · exact ih _ _ _ hl
          · split at hl
            · exact ih _ _ _ hl
            · split at hl
              · rcases List.mem_cons.mp hl with rfl | hl
                · exact ha
                · exact ih _ _ _ hl
              · rename_i g
                split at hl
                · rename_i en hep
                  rw [elsePlan_emits_nothing lines fend i g helse en hep] at hl
                  simp only [List.nil_append] at hl
                  exact ih _ _ _ hl
                · split at hl
                  · exact ih _ _ _ hl
                  · split at hl
                    · exact ih _ _ _ hl
                    · split at hl
                      · exact ih _ _ _ hl
                      · rcases List.mem_cons.mp hl with rfl | hl
                        · exact ha
                        · exact ih _ _ _ hl

/-- C10: (i) when the rewriter's scan reaches a line matching the
binding-assignment pattern, the binding variable is recorded and the scan
continues past the line with nothing emitted — the assignment line itself
is deleted, not merely recorded; (ii) in a function containing no `else`
lines, no line of the rewriter's output matches the assignment pattern;
(iii) Pass 6 deletes every remaining declaration line referencing
`self->gui_data`: no surviving line both matches the declaration pattern
and mentions `self->gui_data`. -/
theorem C10_binding_assignment_deleted :
    (∀ (lines : List String) (fend fuel i : Nat) (var : Option String) (v : String),
        ¬i > fend → reGroup GD_ASSIGN_RE (lines.getD i "") 2 = some v →
        sgGo lines fend (fuel + 1) var i = sgGo lines fend fuel (some v) (i + 1)) ∧
      (∀ (lines : List String) (fstart fend : Nat),
        (∀ l ∈ lines, reMatches ELSE_RE l = false) →
        ∀ l ∈ strip_gui_data_in_function lines fstart fend,
          reGroup GD_ASSIGN_RE l 2 = none) ∧
      (∀ (lines : List String) (l : String), l ∈ pass6 lines →
        ¬(reMatches GD_DECL_RE (pstrip l) = true ∧
          strContains (pstrip l) "self->gui_data" = true)) := by
  refine ⟨?_, ?_, ?_⟩
  · intro lines fend fuel i var v hi ha
    rw [sgGo_succ, if_neg hi, ha]
  · intro lines fstart fend helse l hl
    have helse' : ∀ j, reMatches ELSE_RE (lines.getD j "") = false := by
      intro j
      by_cases hj : j < lines.length
      · exact helse _ (getD_mem_of_lt lines j hj)
      · rw [List.getD_eq_default _ _ (by omega)]
        decide
    exact sgGo_no_assign lines fend helse' _ _ _ l hl
  · intro lines l hl hcontra
    have hdrop := (mem_pass6 lines l hl).2
    unfold pass6Drop at hdrop
    dsimp only [] at hdrop
    rw [hcontra.1, hcontra.2] at hdrop
    simp at hdrop

/-- Witness for C10: in `exC10` the binding line is consumed with `g`
recorded, the output of the rewriter has no assignment line, and a
declaration line is dropped by Pass 6. -/
theorem C10_binding_assignment_deleted_witness :
    reGroup GD_ASSIGN_RE (exC10.getD 2 "") 2 = some "g" ∧
      sgGo exC10 5 5 none 2 = sgGo exC10 5 4 (some "g") 3 ∧
      "  work();\n" ∈ strip_gui_data_in_function exC10 0 5 ∧
      reGroup GD_ASSIGN_RE "  work();\n" 2 = none ∧
      "  other();\n" ∈ pass6 ["  dt_iop_zz_gui_data_t *p = self->gui_data;\n", "  other();\n"] ∧
      ¬(reMatches GD_DECL_RE (pstrip "  other();\n") = true ∧
        strContains (pstrip "  other();\n") "self->gui_data" = true) := by
  refine ⟨by decide, ?_, by decide, ?_, by decide, ?_⟩
  · exact C10_binding_assignment_deleted.1 exC10 5 4 2 none "g" (by omega) (by decide)
  · exact C10_binding_assignment_deleted.2.1 exC10 0 5 (by decide) "  work();\n" (by decide)
  · exact C10_binding_assignment_deleted.2.2
      ["  dt_iop_zz_gui_data_t *p = self->gui_data;\n", "  other();\n"] "  other();\n" (by decide)

/-! ## Claim C5 -/

theorem scanChars_braceFree (cs : List Char)
    (h : cs.all (fun c => !(c = '\x7b') && !(c = '\x7d')) = true) :
    ∀ (d : Int) (f : Bool), scanChars cs d f = some (d, f) := by
  induction cs with
  | nil => intro d f; rfl
  | cons c cs ih =>
    intro d f
    simp only [List.all_cons, Bool.and_eq_true, Bool.not_eq_true',
      decide_eq_false_iff_not] at h
    unfold scanChars
    rw [if_neg h.1.1, if_neg h.1.2]
    apply ih
    simp only [List.all_eq_true]
    intro c' hc'
    have := h.2
    simp only [List.all_eq_true] at this
    exact this c' hc'

theorem fbbeGo_cons (l : String) (ls : List String) (i : Nat) (d : Int) (f : Bool) :
    fbbeGo (l :: ls) i d f =
      (match scanChars (prepLine l) d f with
      | none => some i
      | some (d', f') => fbbeGo ls (i + 1) d' f') := rfl

theorem fbbeGo_cons_skip (l : String) (ls : List String) (i : Nat) (d d' : Int)
    (f f' : Bool) (h : scanChars (prepLine l) d f = some (d', f')) :
    fbbeGo (l :: ls) i d f = fbbeGo ls (i + 1) d' f' := by
  rw [fbbeGo_cons, h]

theorem fbbeGo_braceFree_run :
    ∀ (seg : List String), (∀ l ∈ seg, braceFree l = true) →
      ∀ (ls : List String) (i : Nat) (d : Int) (f : Bool),
        fbbeGo (seg ++ ls) i d f = fbbeGo ls (i + seg.length) d f := by
  intro seg
  induction seg with
  | nil => intro _ ls i d f; simp
  | cons a seg ih =>
    intro hseg ls i d f
    have ha : braceFree a = true := hseg a (List.mem_cons_self _ _)
    unfold braceFree at ha
    rw [List.cons_append,
      fbbeGo_cons_skip a _ i d d f f (scanChars_braceFree _ ha d f),
      ih (fun l hl => hseg l (List.mem_cons_of_mem _ hl)) ls (i + 1) d f]
    congr 1
    simp only [List.length_cons]
    omega

theorem sgGo_step_inert (lines : List String) (fend fuel i : Nat) (hi : ¬i > fend)
    (h : inertNone (lines.getD i "") = true) :
    sgGo lines fend (fuel + 1) none i =
      lines.getD i "" :: sgGo lines fend fuel none (i + 1) := by
  rw [sgGo_succ, if_neg hi]
  unfold inertNone at h
  simp only [Bool.and_eq_true, Bool.not_eq_true', Option.isNone_iff_eq_none] at h
  obtain ⟨⟨⟨h1, h2⟩, h3⟩, h4⟩ := h
  simp only [h1, h2, h3, h4, Bool.false_eq_true, if_false, blockJump]

theorem sgGo_step_ifgd (lines : List String) (fend fuel i : Nat) (var : Option String)
    (hi : ¬i > fend) (ha : reGroup GD_ASSIGN_RE (lines.getD i "") 2 = none)
    (hc : reMatches GD_CAST_SET_RE (lines.getD i "") = false)
    (ho : reMatches IF_GD_ONE_RE (lines.getD i "") = false)
    (hgd : reMatches IF_GD_RE (lines.getD i "") = true)
    (be : Nat) (hbe : find_brace_block_end lines i = some be) (hble : be ≤ fend) :
    sgGo lines fend (fuel + 1) var i = sgGo lines fend fuel var (be + 1) := by
  rw [sgGo_succ, if_neg hi]
  have hbj : blockJump lines fend i (reMatches IF_GD_RE (lines.getD i "")) =
      some (be + 1) := by
    unfold blockJump
    rw [hgd, hbe]
    simp only [if_true, hble]
  simp only [ha, hc, ho, Bool.false_eq_true, if_false, hbj]

theorem sgGo_inert_tail (lines : List String) (fend : Nat)
    (hflen : fend + 1 = lines.length) :
    ∀ (fuel i : Nat), fend + 2 ≤ fuel + i →
      (∀ j, i ≤ j → j ≤ fend → inertNone (lines.getD j "") = true) →
      sgGo lines fend fuel none i = (lines.drop i).take (fend + 1 - i) := by
  intro fuel
  induction fuel with
  | zero =>
    intro i hfi _
    rw [sgGo_zero, show fend + 1 - i = 0 from by omega]
    simp
  | succ n ih =>
    intro i hfi hj
    by_cases hi : i > fend
    · rw [sgGo_succ, if_pos hi, show fend + 1 - i = 0 from by omega]
      simp
    · rw [sgGo_step_inert lines fend n i hi (hj i (le_refl i) (by omega)),
        ih (i + 1) (by omega) (fun j hji hjf => hj j (by omega) hjf)]
      have hilen : i < lines.length := by omega
      rw [List.getD_eq_getElem lines "" hilen, List.drop_eq_getElem_cons hilen,
        show fend + 1 - i = (fend + 1 - (i + 1)) + 1 from by omega,
        List.take_succ_cons]

theorem rawIfElse_split (A B : List String) :
    rawIfElseLines A B =
      (["static void process(dt_iop_module_t *self)\n", "\x7b\n",
        "  if(self->gui_data)\n", "  \x7b\n"] ++ A) ++
        ("  \x7d\n" :: "  else\n" :: "  \x7b\n" :: (B ++ ["  \x7d\n", "\x7d\n"])) := by
  unfold rawIfElseLines
  simp

theorem rawIfElse_fbbe (A B : List String) (hA : ∀ l ∈ A, braceFree l = true) :
    find_brace_block_end (rawIfElseLines A B) 2 = some (4 + A.length) := by
  unfold find_brace_block_end
  have hdrop : (rawIfElseLines A B).drop 2 =
      "  if(self->gui_data)\n" :: "  \x7b\n" ::
        (A ++ ("  \x7d\n" :: "  else\n" :: "  \x7b\n" :: (B ++ ["  \x7d\n", "\x7d\n"]))) := by
    unfold rawIfElseLines
    rfl
  rw [hdrop,
    fbbeGo_cons_skip _ _ 2 0 0 false false (by decide),
    fbbeGo_cons_skip _ _ 3 0 1 false true (by decide),
    fbbeGo_braceFree_run A hA _ 4 1 true,
    fbbeGo_cons, show scanChars (prepLine "  \x7d\n") 1 true = none from by decide]

/-- C5 (amended): for a retained function containing
`if (self->gui_data) { A } else { B }` keyed on the raw accessor, the
rewriter removes only the `if` line and the block `{ A }`; the
`else { B }` lines remain in place verbatim — the else body is not
promoted, not re-indented, and a dangling `else` remains.  (The else-body
promotion described by the original claim happens only for conditionals
keyed on the recorded gui_data binding variable, in `elsePlan`.)
`A` may be any brace-free then-body and `B` any else-body whose lines
match none of the rewriter's raw-accessor patterns. -/
theorem C5_raw_accessor_else_survives (A B : List String)
    (hA : ∀ l ∈ A, braceFree l = true) (hB : ∀ l ∈ B, inertNone l = true) :
    strip_gui_data_in_function (rawIfElseLines A B) 0 (8 + A.length + B.length) =
      "static void process(dt_iop_module_t *self)\n" :: "\x7b\n" ::
        "  else\n" :: "  \x7b\n" :: (B ++ ["  \x7d\n", "\x7d\n"]) := by
  have hlen : (rawIfElseLines A B).length = 9 + A.length + B.length := by
    unfold rawIfElseLines
    simp
    omega
  have hg0 : (rawIfElseLines A B).getD 0 "" =
      "static void process(dt_iop_module_t *self)\n" := rfl
  have hg1 : (rawIfElseLines A B).getD 1 "" = "\x7b\n" := rfl
  have hg2 : (rawIfElseLines A B).getD 2 "" = "  if(self->gui_data)\n" := rfl
  unfold strip_gui_data_in_function
  obtain ⟨F, hF⟩ : ∃ F, F = 8 + A.length + B.length := ⟨_, rfl⟩
  rw [← hF, hlen]
  have s0 := sgGo_step_inert (rawIfElseLines A B) F (9 + A.length + B.length) 0
    (by omega) (by rw [hg0]; decide)
  have s1 := sgGo_step_inert (rawIfElseLines A B) F (8 + A.length + B.length) 1
    (by omega) (by rw [hg1]; decide)
  have s2 := sgGo_step_ifgd (rawIfElseLines A B) F (7 + A.length + B.length) 2 none
    (by omega) (by rw [hg2]; decide) (by rw [hg2]; decide) (by rw [hg2]; decide)
    (by rw [hg2]; decide) (4 + A.length) (rawIfElse_fbbe A B hA) (by omega)
  rw [show 9 + A.length + B.length + 1 = (9 + A.length + B.length) + 1 from rfl, s0,
    show 9 + A.length + B.length = (8 + A.length + B.length) + 1 from by omega, s1,
    show 8 + A.length + B.length = (7 + A.length + B.length) + 1 from by omega, s2]
  have htail : sgGo (rawIfElseLines A B) F (7 + A.length + B.length) none
      (4 + A.length + 1) =
      ((rawIfElseLines A B).drop (4 + A.length + 1)).take (F + 1 - (4 + A.length + 1)) := by
    apply sgGo_inert_tail
    · omega
    · omega
    · intro j hj1 hj2
      rw [rawIfElse_split A B,
        List.getD_append_right _ _ _ _ (by simp; omega)]
      have hin : ∀ x ∈ ("  \x7d\n" :: "  else\n" :: "  \x7b\n" ::
          (B ++ ["  \x7d\n", "\x7d\n"])), inertNone x = true := by
        intro x hx
        simp only [List.mem_cons, List.mem_append] at hx
        rcases hx with rfl | rfl | rfl | hx | rfl | rfl | hx
        · decide
        · decide
        · decide
        · exact hB x hx
        · decide
        · decide
        · simp at hx
      apply hin
      apply getD_mem_of_lt
      simp only [List.length_append, List.length_cons, List.length_nil]
      omega
  rw [htail, hg0, hg1, rawIfElse_split A B,
    show F + 1 - (4 + A.length + 1) = B.length + 4 from by omega,
    show 4 + A.length + 1 =
      (["static void process(dt_iop_module_t *self)\n", "\x7b\n",
        "  if(self->gui_data)\n", "  \x7b\n"] ++ A).length + 1 from by simp; omega,
    List.drop_append 1]
  simp only [List.drop_one, List.tail_cons]
  rw [List.take_of_length_le (by
    simp only [List.length_append, List.length_cons, List.length_nil]; omega)]

/-- Witness for C5's amended statement at concrete bodies `A` and `B`. -/
theorem C5_raw_accessor_else_survives_witness :
    strip_gui_data_in_function (rawIfElseLines ["    a();\n"] ["    b();\n"]) 0 10 =
      ["static void process(dt_iop_module_t *self)\n", "\x7b\n", "  else\n", "  \x7b\n",
       "    b();\n", "  \x7d\n", "\x7d\n"] := by
  have h := C5_raw_accessor_else_survives ["    a();\n"] ["    b();\n"]
    (by intro l hl; simp only [List.mem_singleton] at hl; rw [hl]; decide)
    (by intro l hl; simp only [List.mem_singleton] at hl; rw [hl]; decide)
  simpa using h

/-- Counterexample to C5 as stated: in `exC5` the retained `process`
contains `if (self->gui_data) { a(); } else { b(); }`; the rewriter's
output keeps the `else` line (a dangling `else`) and keeps the else body
with its original indentation, instead of replacing the whole construct by
the else body alone re-indented one level outward. -/
theorem C5_counterexample :
    strip_gui_data_in_function exC5 0 10 =
      ["static void process(dt_iop_module_t *self)\n", "\x7b\n",
       "  else\n", "  \x7b\n", "    b();\n", "  \x7d\n", "\x7d\n"] ∧
      "  else\n" ∈ strip_gui_data_in_function exC5 0 10 := by
  refine ⟨by decide, by decide⟩

end StripIop
